import Mathlib

/-!
# golang-api-sample: the APOD front end of `main.go`

A shallow embedding of `src/main.go`: the two echo handlers `handleRoot` and
`handlePost`, the client `fetchData`, and the helpers `handleError` and `readAll`.

Everything outside the file is an explicit input of the model:

* the network and the clock are fields of `World`; every call of `http.Get`, every GET
  request that call puts on the wire and every reading of `time.Now` is recorded there;
* the parsed template `t` is a function from the view data to what `Execute` writes and
  returns; what the specification says of the page is the predicate `pageShowsRecord`;
* the library routines the code calls (`fmt.Sprintf`, `Time.Format`, `json.Unmarshal`,
  `url.Parse` inside `http.Get`) are modelled after the Go standard library;
  `json.Unmarshal` is a one-pass scanner in the style of `encoding/json`, followed by the
  struct decoder; URLs and queries are handled as bytes.

Conventions: Go strings and byte slices are Unicode text (`String`, `List Char`), so a
body is taken to be valid UTF-8; a pair `(value, error)` is a pair of options, `none`
standing for nil; writes to the response writer succeed; `defer resp.Body.Close()` has no
part in what the functions return and is left out.
-/

namespace ApodSample

/-! ## Data model (main.go, lines 18-39) -/

/-- The layout constant `DateFormat`. -/
def DateFormat : String := "2006-01-02"

/-- The struct `response`: the record decoded from the upstream body. -/
structure response where
  Date : String
  Explanation : String
  URL : String
  Title : String
deriving DecidableEq, Repr

/-- The struct `viewData`; the pointer `*response` is an `Option` (`nil` is `none`). -/
structure viewData where
  Date : String
  Result : Option response
deriving DecidableEq, Repr

/-- The struct `apiClient`. -/
structure apiClient where
  apiKey : String
deriving DecidableEq, Repr

/-- Go `error` values that can reach the handlers, by origin. -/
inductive GoError where
  | transport (msg : String)
  | read (msg : String)
  | jsonSyntax
  | jsonType (value : String) (field : String)
  | template (msg : String)
deriving DecidableEq, Repr

/-! ## `encoding/json`: values, scanner, struct decoder -/

/-- A JSON value; arrays and objects keep their elements in input order. -/
inductive JSON where
  | null
  | bool (b : Bool)
  | num (lit : String)
  | str (s : String)
  | arr (items : List JSON)
  | obj (members : List (String × JSON))
deriving Repr

/-- One unit of a string literal: a character, or the 16-bit value of a `\uXXXX` escape. -/
inductive StrTok where
  | lit (c : Char)
  | unit (n : Nat)
deriving DecidableEq, Repr

/-- The rune `unicode.ReplacementChar`. -/
def replacementChar : Char := Char.ofNat 0xFFFD

/-- The test `utf16.IsSurrogate`. -/
def isSurrogate (n : Nat) : Bool := 0xD800 ≤ n && n < 0xE000

/-- The function `utf16.DecodeRune`; `none` stands for the replacement rune. -/
def decodeRune (r1 r2 : Nat) : Option Char :=
  if 0xD800 ≤ r1 && r1 < 0xDC00 && 0xDC00 ≤ r2 && r2 < 0xE000 then
    some (Char.ofNat ((r1 - 0xD800) * 0x400 + (r2 - 0xDC00) + 0x10000))
  else none

/-- The escape handling of `unquote`: a surrogate escape followed directly by a matching
escape forms one rune, a lone surrogate becomes the replacement rune. -/
def unquoteToks : List StrTok → List Char
  | [] => []
  | StrTok.lit c :: rest => c :: unquoteToks rest
  | [StrTok.unit r] => [if isSurrogate r then replacementChar else Char.ofNat r]
  | StrTok.unit r :: StrTok.lit c :: rest =>
    (if isSurrogate r then replacementChar else Char.ofNat r) :: c :: unquoteToks rest
  | StrTok.unit r :: StrTok.unit r1 :: rest =>
    if isSurrogate r then
      match decodeRune r r1 with
      | some c => c :: unquoteToks rest
      | none => replacementChar :: unquoteToks (StrTok.unit r1 :: rest)
    else Char.ofNat r :: unquoteToks (StrTok.unit r1 :: rest)

/-- Where the scanner is inside a number literal (`stateNeg`, `state0`, `state1`,
`stateDot`, `stateDot0`, `stateE`, `stateESign`, `stateE0`). -/
inductive NumState where
  | neg | zero | int | dot | frac | exp | expSign | expDigits
deriving DecidableEq, Repr

/-- The scanner's step function, as data. -/
inductive Mode where
  | beginValue
  | beginValueOrEmpty
  | beginStringOrEmpty
  | beginString
  | inString (acc : List StrTok)
  | inStringEsc (acc : List StrTok)
  | inStringEscU (acc : List StrTok) (hex : List Nat)
  | inNumber (st : NumState) (acc : List Char)
  | inLiteral (rest : List Nat) (v : JSON)
  | afterKey
  | endValue
  | error

/-- An open container on the scanner's stack, with what it holds so far (newest first).
An object frame carries the key that still waits for its value. -/
inductive Frame where
  | array (items : List JSON)
  | object (members : List (String × JSON)) (pending : Option String)

/-- Scanner state: the step function, the stack of open containers, and the top-level
value once it is complete. -/
structure Scanner where
  mode : Mode
  stack : List Frame
  result : Option JSON

/-- The constant `maxNestingDepth`. -/
def maxNestingDepth : Nat := 10000

/-- The test `isSpace`: space, tab, carriage return, line feed. -/
def isSpace (c : Char) : Bool :=
  c.toNat == 32 || c.toNat == 9 || c.toNat == 13 || c.toNat == 10

/-- The scanner in its error state. -/
def Scanner.fail (s : Scanner) : Scanner := { s with mode := Mode.error }

/-- A value is complete: it becomes the top-level result, an array element, the value of
the pending key, or (a string directly inside an object) the pending key itself. -/
def endOfValue (v : JSON) (s : Scanner) : Scanner :=
  match s.stack with
  | [] => { mode := Mode.endValue, stack := [], result := some v }
  | Frame.array items :: rest =>
    { s with mode := Mode.endValue, stack := Frame.array (v :: items) :: rest }
  | Frame.object ms (some k) :: rest =>
    { s with mode := Mode.endValue, stack := Frame.object ((k, v) :: ms) none :: rest }
  | Frame.object ms none :: rest =>
    match v with
    | JSON.str k => { s with mode := Mode.afterKey, stack := Frame.object ms (some k) :: rest }
    | _ => s.fail

/-- The step `stateEndValue` (and `stateEndTop` when no container is open). -/
def stepEndValue (c : Char) (s : Scanner) : Scanner :=
  if isSpace c then s else
  match s.stack with
  | [] => s.fail
  | Frame.array items :: rest =>
    if c.toNat == 44 then { s with mode := Mode.beginValue }
    else if c.toNat == 93 then endOfValue (JSON.arr items.reverse) { s with stack := rest }
    else s.fail
  | Frame.object ms none :: rest =>
    if c.toNat == 44 then { s with mode := Mode.beginString }
    else if c.toNat == 125 then endOfValue (JSON.obj ms.reverse) { s with stack := rest }
    else s.fail
  | Frame.object _ (some _) :: _ => s.fail

/-- The step `pushParseState`: open a container unless the nesting limit is exceeded. -/
def pushFrame (f : Frame) (next : Mode) (s : Scanner) : Scanner :=
  if s.stack.length + 1 ≤ maxNestingDepth then { s with mode := next, stack := f :: s.stack }
  else s.fail

/-- The step `stateBeginValue`, for a character that is not white space. -/
def stepBeginValue (c : Char) (s : Scanner) : Scanner :=
  let n := c.toNat
  if n == 123 then pushFrame (Frame.object [] none) Mode.beginStringOrEmpty s
  else if n == 91 then pushFrame (Frame.array []) Mode.beginValueOrEmpty s
  else if n == 34 then { s with mode := Mode.inString [] }
  else if n == 45 then { s with mode := Mode.inNumber NumState.neg [c] }
  else if n == 48 then { s with mode := Mode.inNumber NumState.zero [c] }
  else if n == 116 then { s with mode := Mode.inLiteral [114, 117, 101] (JSON.bool true) }
  else if n == 102 then { s with mode := Mode.inLiteral [97, 108, 115, 101] (JSON.bool false) }
  else if n == 110 then { s with mode := Mode.inLiteral [117, 108, 108] JSON.null }
  else if 49 ≤ n && n ≤ 57 then { s with mode := Mode.inNumber NumState.int [c] }
  else s.fail

/-- The value of a hexadecimal digit, if the character is one. -/
def hexVal (c : Char) : Option Nat :=
  let n := c.toNat
  if 48 ≤ n && n ≤ 57 then some (n - 48)
  else if 97 ≤ n && n ≤ 102 then some (n - 97 + 10)
  else if 65 ≤ n && n ≤ 70 then some (n - 65 + 10)
  else none

/-- The step `stateInStringEsc`: the character after a backslash. -/
def stepEscape (c : Char) (acc : List StrTok) (s : Scanner) : Scanner :=
  let n := c.toNat
  if n == 98 then { s with mode := Mode.inString (StrTok.lit (Char.ofNat 8) :: acc) }
  else if n == 102 then { s with mode := Mode.inString (StrTok.lit (Char.ofNat 12) :: acc) }
  else if n == 110 then { s with mode := Mode.inString (StrTok.lit (Char.ofNat 10) :: acc) }
  else if n == 114 then { s with mode := Mode.inString (StrTok.lit (Char.ofNat 13) :: acc) }
  else if n == 116 then { s with mode := Mode.inString (StrTok.lit (Char.ofNat 9) :: acc) }
  else if n == 92 || n == 47 || n == 34 then { s with mode := Mode.inString (StrTok.lit c :: acc) }
  else if n == 117 then { s with mode := Mode.inStringEscU acc [] }
  else s.fail

/-- The steps `stateInStringEscU` to `stateInStringEscU123`: four hexadecimal digits. -/
def stepEscapeU (c : Char) (acc : List StrTok) (hex : List Nat) (s : Scanner) : Scanner :=
  match hexVal c with
  | none => s.fail
  | some d =>
    match hex with
    | [h2, h1, h0] =>
      { s with mode := Mode.inString (StrTok.unit (((h0 * 16 + h1) * 16 + h2) * 16 + d) :: acc) }
    | _ => { s with mode := Mode.inStringEscU acc (d :: hex) }

/-- The step `stateInString`. -/
def stepString (c : Char) (acc : List StrTok) (s : Scanner) : Scanner :=
  let n := c.toNat
  if n == 34 then endOfValue (JSON.str (String.mk (unquoteToks acc.reverse))) s
  else if n == 92 then { s with mode := Mode.inStringEsc acc }
  else if n < 32 then s.fail
  else { s with mode := Mode.inString (StrTok.lit c :: acc) }

/-- A number literal ends at `c`: the number is a complete value and `c` is handled by
`stateEndValue`. -/
def endNumber (c : Char) (acc : List Char) (s : Scanner) : Scanner :=
  let s1 := endOfValue (JSON.num (String.mk acc.reverse)) s
  match s1.mode with
  | Mode.endValue => stepEndValue c s1
  | _ => s1.fail

/-- The number steps `stateNeg`, `state0`, `state1`, `stateDot`, `stateDot0`, `stateE`,
`stateESign`, `stateE0`. -/
def stepNumber (c : Char) (st : NumState) (acc : List Char) (s : Scanner) : Scanner :=
  let n := c.toNat
  let digit : Bool := 48 ≤ n && n ≤ 57
  let go (st1 : NumState) : Scanner := { s with mode := Mode.inNumber st1 (c :: acc) }
  match st with
  | NumState.neg =>
    if n == 48 then go NumState.zero
    else if 49 ≤ n && n ≤ 57 then go NumState.int
    else s.fail
  | NumState.int =>
    if digit then go NumState.int
    else if n == 46 then go NumState.dot
    else if n == 101 || n == 69 then go NumState.exp
    else endNumber c acc s
  | NumState.zero =>
    if n == 46 then go NumState.dot
    else if n == 101 || n == 69 then go NumState.exp
    else endNumber c acc s
  | NumState.dot => if digit then go NumState.frac else s.fail
  | NumState.frac =>
    if digit then go NumState.frac
    else if n == 101 || n == 69 then go NumState.exp
    else endNumber c acc s
  | NumState.exp =>
    if n == 43 || n == 45 then go NumState.expSign
    else if digit then go NumState.expDigits
    else s.fail
  | NumState.expSign => if digit then go NumState.expDigits else s.fail
  | NumState.expDigits => if digit then go NumState.expDigits else endNumber c acc s

/-- One character through the scanner. -/
def step (s : Scanner) (c : Char) : Scanner :=
  match s.mode with
  | Mode.error => s
  | Mode.beginValue => if isSpace c then s else stepBeginValue c s
  | Mode.beginValueOrEmpty =>
    if isSpace c then s
    else if c.toNat == 93 then stepEndValue c s
    else stepBeginValue c s
  | Mode.beginStringOrEmpty =>
    if isSpace c then s
    else if c.toNat == 125 then stepEndValue c s
    else if c.toNat == 34 then { s with mode := Mode.inString [] }
    else s.fail
  | Mode.beginString =>
    if isSpace c then s
    else if c.toNat == 34 then { s with mode := Mode.inString [] }
    else s.fail
  | Mode.inString acc => stepString c acc s
  | Mode.inStringEsc acc => stepEscape c acc s
  | Mode.inStringEscU acc hex => stepEscapeU c acc hex s
  | Mode.inNumber st acc => stepNumber c st acc s
  | Mode.inLiteral rest v =>
    match rest with
    | [] => s.fail
    | [x] => if c.toNat == x then endOfValue v s else s.fail
    | x :: more => if c.toNat == x then { s with mode := Mode.inLiteral more v } else s.fail
  | Mode.afterKey =>
    if isSpace c then s
    else if c.toNat == 58 then { s with mode := Mode.beginValue }
    else s.fail
  | Mode.endValue => stepEndValue c s

/-- The scanner before the first character. -/
def Scanner.init : Scanner := { mode := Mode.beginValue, stack := [], result := none }

/-- The input as one JSON value: run the scanner over the text, then `eof` (which feeds a
final space); `none` is a syntax error. -/
def parseJSON (input : List Char) : Option JSON :=
  let s := step (input.foldl step Scanner.init) (Char.ofNat 32)
  match s.mode, s.stack with
  | Mode.endValue, [] => s.result
  | _, _ => none

/-- The name `UnmarshalTypeError` reports for a JSON value. -/
def JSON.kind : JSON → String
  | JSON.null => "null"
  | JSON.bool _ => "bool"
  | JSON.num _ => "number"
  | JSON.str _ => "string"
  | JSON.arr _ => "array"
  | JSON.obj _ => "object"

/-- The four fields of `response`, in declaration order. -/
inductive Field where
  | Date | Explanation | URL | Title
deriving DecidableEq, Repr

/-- The key of a field: its `json:"..."` tag. -/
def Field.tag : Field → String
  | Field.Date => "date"
  | Field.Explanation => "explanation"
  | Field.URL => "url"
  | Field.Title => "title"

/-- The fields of `response`, as `encoding/json` lists them. -/
def responseFields : List Field := [Field.Date, Field.Explanation, Field.URL, Field.Title]

/-- The function `foldName` on a key: ASCII letters are upper-cased. None of the four
tags holds a letter whose folding class has a member outside ASCII (`k`, `s`), so for
them this is the whole of the case-insensitive match. -/
def foldName (s : String) : List Char :=
  s.data.map fun c => if 97 ≤ c.toNat && c.toNat ≤ 122 then Char.ofNat (c.toNat - 32) else c

/-- The field an object key is stored to: an exact match of the tag, else a
case-insensitive one, else none (the value is skipped). -/
def fieldFor (key : String) : Option Field :=
  match responseFields.find? (fun f => f.tag == key) with
  | some f => some f
  | none => responseFields.find? (fun f => foldName f.tag == foldName key)

/-- Assignment to one field of the struct. -/
def setField (v : response) (f : Field) (s : String) : response :=
  match f with
  | Field.Date => { v with Date := s }
  | Field.Explanation => { v with Explanation := s }
  | Field.URL => { v with URL := s }
  | Field.Title => { v with Title := s }

/-- The method `saveError`: only the first error is kept. -/
def saveError (saved : Option GoError) (e : GoError) : Option GoError :=
  match saved with
  | some e0 => some e0
  | none => some e

/-- One object member through the struct decoder: a string is stored to the matching
field, `null` leaves the field as it is, any other value for a known field is a type
error (decoding goes on), and a member for no field is skipped. -/
def storeMember (st : response × Option GoError) (m : String × JSON) :
    response × Option GoError :=
  match fieldFor m.1 with
  | none => st
  | some f =>
    match m.2 with
    | JSON.str s => (setField st.1 f s, st.2)
    | JSON.null => st
    | v => (st.1, saveError st.2 (GoError.jsonType v.kind f.tag))

/-- Decoding a JSON value into a `response`: an object member by member, `null` is a
no-op, every other value is a type error. -/
def decodeValue (j : JSON) (v : response) : response × Option GoError :=
  match j with
  | JSON.obj members => members.foldl storeMember (v, none)
  | JSON.null => (v, none)
  | other => (v, some (GoError.jsonType other.kind ""))

/-- The call `json.Unmarshal(data, &v)` for `v` of type `response`: the struct after the
call and the returned error. The whole input is checked for syntax before anything is
stored. -/
def Unmarshal (data : String) (v : response) : response × Option GoError :=
  match parseJSON data.data with
  | none => (v, some GoError.jsonSyntax)
  | some j => decodeValue j v

/-! ## `fmt.Sprintf` and `Time.Format` -/

/-- The call `fmt.Sprintf(format, args...)` for string operands and the verbs `%s` and
`%%`, the ones the program uses. -/
def Sprintf : List Char → List String → List Char
  | [], _ => []
  | '%' :: 's' :: rest, a :: args => a.data ++ Sprintf rest args
  | '%' :: 's' :: rest, [] => "%!s(MISSING)".data ++ Sprintf rest []
  | '%' :: '%' :: rest, args => '%' :: Sprintf rest args
  | c :: rest, args => c :: Sprintf rest args

/-- The function `isLeap` of package `time`. -/
def isLeap (year : Int) : Bool :=
  year % 4 == 0 && (year % 100 != 0 || year % 400 == 0)

/-- The function `daysIn` of package `time`. -/
def daysIn (m : Nat) (year : Int) : Nat :=
  if m == 2 && isLeap year then 29
  else match m with
    | 1 => 31 | 2 => 28 | 3 => 31 | 4 => 30 | 5 => 31 | 6 => 30
    | 7 => 31 | 8 => 31 | 9 => 30 | 10 => 31 | 11 => 30 | 12 => 31
    | _ => 0

/-- What `Format` reads of a reading of `time.Now()`: the civil date `t.Date()` in the
local zone. It is a date of the calendar, and its year has at most four digits: the
system clock a running server reads does not leave the years 0 to 9999. -/
structure Time where
  year : Int
  month : Nat
  day : Nat
  year_range : 0 ≤ year ∧ year ≤ 9999
  month_range : 1 ≤ month ∧ month ≤ 12
  day_range : 1 ≤ day ∧ day ≤ daysIn month year

/-- The decimal digit `d` as a character. -/
def digitChar (d : Nat) : Char := Char.ofNat (48 + d)

/-- The function `appendInt` of package `time`: sign, then the magnitude padded with
zeros to `width`, with the two fast paths of the source. -/
def appendInt (x : Int) (width : Nat) : List Char :=
  let u := x.natAbs
  let sign : List Char := if x < 0 then ['-'] else []
  if width == 2 && u < 100 then sign ++ [digitChar (u / 10), digitChar (u % 10)]
  else if width == 4 && u < 10000 then
    sign ++ [digitChar (u / 1000), digitChar (u / 100 % 10), digitChar (u / 10 % 10),
      digitChar (u % 10)]
  else sign ++ List.replicate (width - (Nat.toDigits 10 u).length) '0' ++ Nat.toDigits 10 u

/-- The method `Time.Format` for layouts made of the chunks `2006` (year), `01` (month),
`02` (day of month) and literal text, which is what `DateFormat` is made of. -/
def Format (t : Time) : List Char → List Char
  | [] => []
  | '2' :: '0' :: '0' :: '6' :: rest => appendInt t.year 4 ++ Format t rest
  | '0' :: '1' :: rest => appendInt (Int.ofNat t.month) 2 ++ Format t rest
  | '0' :: '2' :: rest => appendInt (Int.ofNat t.day) 2 ++ Format t rest
  | c :: rest => c :: Format t rest

/-! ## Bytes, `net/url` and the request on the wire -/

/-- The UTF-8 encoding of a code point. -/
def utf8 (n : Nat) : List Nat :=
  if n < 0x80 then [n]
  else if n < 0x800 then [0xC0 + n / 0x40, 0x80 + n % 0x40]
  else if n < 0x10000 then [0xE0 + n / 0x1000, 0x80 + n / 0x40 % 0x40, 0x80 + n % 0x40]
  else [0xF0 + n / 0x40000, 0x80 + n / 0x1000 % 0x40, 0x80 + n / 0x40 % 0x40,
    0x80 + n % 0x40]

/-- The bytes of a text, character by character. -/
def bytesOf : List Char → List Nat
  | [] => []
  | c :: cs => utf8 c.toNat ++ bytesOf cs

/-- The bytes of a Go string. -/
def bytes (s : String) : List Nat := bytesOf s.data

/-- The function `strings.Cut` for a one-byte separator: the bytes before the first
separator and the bytes after it (all of them and none when there is no separator). -/
def cut (sep : Nat) : List Nat → List Nat × List Nat
  | [] => ([], [])
  | b :: bs => if b = sep then ([], bs) else (b :: (cut sep bs).1, (cut sep bs).2)

/-- The test of `stringContainsCTLByte`: a byte below 0x20, or 0x7f. -/
def isCTL (b : Nat) : Bool := b < 0x20 || b == 0x7f

/-- The functions `ishex` and `unhex`: the value of a hexadecimal digit, if the byte is
one. -/
def unhex (b : Nat) : Option Nat :=
  if 48 ≤ b && b ≤ 57 then some (b - 48)
  else if 97 ≤ b && b ≤ 102 then some (b - 97 + 10)
  else if 65 ≤ b && b ≤ 70 then some (b - 65 + 10)
  else none

/-- The check `unescape` makes before decoding: every `%` is followed by two hexadecimal
digits. -/
def validEscapes : List Nat → Bool
  | [] => true
  | 37 :: a :: b :: rest => (unhex a).isSome && (unhex b).isSome && validEscapes rest
  | 37 :: _ => false
  | _ :: rest => validEscapes rest

/-- The field `RawQuery` of `url.Parse(raw)`, for a URL whose scheme, host and path are
well-formed (as those of the fixed prefix are); `none` when `url.Parse` returns an
error. The fragment is cut off at the first `#`; what is left must hold no control byte
and the fragment no malformed escape; the query is what follows the first `?`. -/
def parseRawQuery (raw : List Nat) : Option (List Nat) :=
  if (cut 35 raw).1.any isCTL then none
  else if validEscapes (cut 35 raw).2 then some (cut 63 (cut 35 raw).1).2
  else none

/-- The URL is one `http.Get` refuses before anything is sent: `url.Parse` fails on it. -/
def urlRefused (url : String) : Bool := (parseRawQuery (bytes url)).isNone

/-- The bytes split at every separator. -/
def splitAll (sep : Nat) : List Nat → List (List Nat)
  | [] => [[]]
  | b :: bs =>
    if b = sep then [] :: splitAll sep bs
    else match splitAll sep bs with
      | [] => [[b]]
      | seg :: more => (b :: seg) :: more

/-- The function `url.QueryUnescape`: `%XX` is the byte with that value, `+` is a space;
`none` when a `%` is not followed by two hexadecimal digits. -/
def QueryUnescape : List Nat → Option (List Nat)
  | [] => some []
  | 37 :: a :: b :: rest =>
    match unhex a, unhex b, QueryUnescape rest with
    | some x, some y, some out => some ((x * 16 + y) :: out)
    | _, _, _ => none
  | 37 :: _ => none
  | 43 :: rest => (QueryUnescape rest).map (fun out => 32 :: out)
  | b :: rest => (QueryUnescape rest).map (fun out => b :: out)

/-- One `&`-separated piece of a query through `url.ParseQuery`: a piece that is empty,
holds a semicolon or does not unescape adds nothing. -/
def parsePair (piece : List Nat) : Option (List Nat × List Nat) :=
  if 59 ∈ piece then none
  else if piece = [] then none
  else
    match QueryUnescape (cut 61 piece).1, QueryUnescape (cut 61 piece).2 with
    | some key, some value => some (key, value)
    | _, _ => none

/-- The function `url.ParseQuery`, keeping the pairs in order. -/
def ParseQuery (query : List Nat) : List (List Nat × List Nat) :=
  (splitAll 38 query).filterMap parsePair

/-- What the receiver of the request that `http.Get(url)` sends reads as the query
parameter `name`, in bytes. It reads nothing when `http.Get` refuses the URL, since no
request is sent, and nothing when the query holds a space: the request line
`GET target HTTP/1.1` is split at its spaces, so such a request is refused as malformed.
Otherwise the request target is the escaped path, `?` and `RawQuery`, and the receiver
reads the first value of the parameter in `ParseQuery` of that query (`Query().Get`,
without the reduction of an absent parameter to the empty string). -/
def receivedParam (name : String) (url : String) : Option (List Nat) :=
  match parseRawQuery (bytes url) with
  | none => none
  | some query =>
    if 32 ∈ query then none
    else (ParseQuery query).lookup (bytes name)

/-! ## The world: network, clock, log, template -/

/-- A response body as `readAll` sees it: the bytes it delivers, then a clean end
(`none`) or a read error. -/
structure Reader where
  data : String
  err : Option GoError

/-- What `http.Get` returns: an error, or a response with its status code and body. Any
status code comes back as a response, never as an error. -/
inductive GetResult where
  | failed (err : GoError)
  | response (StatusCode : Nat) (Body : Reader)

/-- Everything the handlers reach outside their arguments. `net n url` is what the
`n`-th call of `http.Get` (counting from 0) returns when it is made on `url`, the error
for a URL it refuses included; `followed n url` lists the URLs of the redirects the
client follows inside that call; `clock n` is the `n`-th reading of `time.Now`. The other
fields record what has happened, oldest first: the URLs handed to `http.Get`, the GET
requests put on the wire, the number of clock readings, the lines written by package
`log` and the view data handed to `Execute`. -/
structure World where
  net : Nat → String → GetResult
  followed : Nat → String → List String
  clock : Nat → Time
  gets : List String
  sent : List String
  clockReads : Nat
  logs : List String
  executed : List viewData

/-- What `t.Execute(w, data)` does: the bytes written to `w` and the error returned. -/
structure ExecResult where
  output : String
  err : Option GoError

/-- The parsed template `t`, by its effect on each view data. -/
abbrev Template := viewData → ExecResult

/-- The response writer: the status code set by `WriteHeader` (if any), the content type
header (if set) and the bytes written. -/
structure Reply where
  status : Option Nat
  contentType : Option String
  body : String
deriving DecidableEq, Repr

/-- The status code on the wire when the handler returns nil: the one set, else 200 as
net/http implies. -/
def Reply.statusCode (r : Reply) : Nat := r.status.getD 200

/-- The part of `echo.Context` the handlers read: the form values of the request, in the
order `FormValue` looks them up. The response writer of a request starts empty (`main`
installs no middleware), so a handler's `Reply` is what the handler itself wrote. -/
structure Context where
  form : List (String × String)

/-- A handler's effect: the error it returns (`none` is nil), the response writer and the
world afterwards. -/
structure Outcome where
  err : Option GoError
  reply : Reply
  world : World

/-- The constant `http.StatusInternalServerError`. -/
def StatusInternalServerError : Nat := 500

/-- The constant `echo.MIMETextPlainCharsetUTF8`. -/
def MIMETextPlainCharsetUTF8 : String := "text/plain; charset=UTF-8"

/-- The call `http.Get(url)`: the call is recorded and its return value is the one the
world gives (for a refused URL that value is an error; no theorem needs this of `net`).
On the wire the call puts nothing when the URL is refused, and otherwise one GET for the
URL and one for each redirect the client follows. -/
def httpGet (url : String) (w : World) : GetResult × World :=
  (w.net w.gets.length url,
    { w with
      gets := w.gets ++ [url],
      sent := w.sent ++ (if urlRefused url then [] else url :: w.followed w.gets.length url) })

/-- The call `time.Now()`: recorded, and answered by the clock. -/
def timeNow (w : World) : Time × World :=
  (w.clock w.clockReads, { w with clockReads := w.clockReads + 1 })

/-- The method `ctx.FormValue(name)`: the first value of the field, else the empty
string. -/
def Context.FormValue (ctx : Context) (name : String) : String :=
  (ctx.form.lookup name).getD ""

/-- The method `ctx.String(code, s)`: content type, status, body; returns nil. -/
def Context.String (_ctx : Context) (code : Nat) (s : String) : Option GoError × Reply :=
  (none, { status := some code, contentType := some MIMETextPlainCharsetUTF8, body := s })

/-- The call `t.Execute(ctx.Response().Writer, data)`: the execution is recorded, its
output goes to the writer, its error is returned. -/
def Execute (t : Template) (_ctx : Context) (data : viewData) (w : World) : Outcome :=
  { err := (t data).err,
    reply := { status := none, contentType := none, body := (t data).output },
    world := { w with executed := w.executed ++ [data] } }

/-! ## main.go, lines 67-136 -/

/-- The function `readAll` (lines 129-136). -/
def readAll (r : Reader) : Option String × Option GoError :=
  match r.err with
  | some err => (none, some err)
  | none => (some r.data, none)

/-- The function `handleError` (lines 124-127): one log line, then `ctx.String` with
status 500. -/
def handleError (ctx : Context) (message : String) (w : World) : Outcome :=
  let w1 := { w with logs := w.logs ++ ["エラー: " ++ message] }
  let r := ctx.String StatusInternalServerError message
  { err := r.1, reply := r.2, world := w1 }

/-- The format string of `fetchData` (line 102). -/
def apodFormat : String := "https://api.nasa.gov/planetary/apod?api_key=%s&date=%s"

/-- The URL built on line 102. -/
def requestURL (c : apiClient) (date : String) : String :=
  String.mk (Sprintf apodFormat.data [c.apiKey, date])

/-- Lines 105-121 of `fetchData`: the pair `(*response, error)` it returns, given what
`http.Get` returned. -/
def afterGet (g : GetResult) : Option response × Option GoError :=
  match g with
  | GetResult.failed err => (none, some err)
  | GetResult.response _ Body =>
    match readAll Body with
    | (_, some err) => (none, some err)
    | (body, none) =>
      match Unmarshal (body.getD "") ⟨"", "", "", ""⟩ with
      | (_, some err) => (none, some err)
      | (result, none) => (some result, none)

/-- The method `fetchData` (lines 101-122): the pair `(*response, error)` it returns and
the world afterwards. -/
def fetchData (c : apiClient) (date : String) (w : World) :
    (Option response × Option GoError) × World :=
  let url := requestURL c date
  match httpGet url w with
  | (g, w1) => (afterGet g, w1)

/-- The message both handlers pass to `handleError`. -/
def apiErrorMessage : String := "APIリクエストエラー"

/-- The handler returned by `handleRoot` (lines 67-81). -/
def handleRoot (c : apiClient) (t : Template) (ctx : Context) (w : World) : Outcome :=
  match timeNow w with
  | (now, w1) =>
    let currentDate := String.mk (Format now DateFormat.data)
    match fetchData c currentDate w1 with
    | ((_, some _), w2) => handleError ctx apiErrorMessage w2
    | ((result, none), w2) => Execute t ctx { Date := currentDate, Result := result } w2

/-- The handler returned by `handlePost` (lines 83-98). -/
def handlePost (c : apiClient) (t : Template) (ctx : Context) (w : World) : Outcome :=
  let date := ctx.FormValue "date"
  match fetchData c date w with
  | ((_, some _), w1) => handleError ctx apiErrorMessage w1
  | ((result, none), w1) => Execute t ctx { Date := date, Result := result } w1

/-- The two routes `main` registers: `e.GET("/", client.handleRoot(t))` and
`e.POST("/", client.handlePost(t))`. -/
inductive Route where
  | root
  | post
deriving DecidableEq, Repr

/-- The handler registered for a route. -/
def serve (r : Route) (c : apiClient) (t : Template) (ctx : Context) (w : World) : Outcome :=
  match r with
  | Route.root => handleRoot c t ctx w
  | Route.post => handlePost c t ctx w

/-- The date a route asks for: the formatted clock reading, or the form value. -/
def requestedDate (r : Route) (ctx : Context) (w : World) : String :=
  match r with
  | Route.root => String.mk (Format (w.clock w.clockReads) DateFormat.data)
  | Route.post => ctx.FormValue "date"

/-- The world in which a route calls `fetchData`: after the clock reading, if any. -/
def worldAtFetch (r : Route) (w : World) : World :=
  match r with
  | Route.root => (timeNow w).2
  | Route.post => w

/-- The world `w` with a network that answers every call with `g`. -/
def World.answering (w : World) (g : GetResult) : World := { w with net := fun _ _ => g }

/-! ## Dates of the form YYYY-MM-DD -/

/-- The value of a decimal digit, if the character is one. -/
def digitVal (c : Char) : Option Nat :=
  if 48 ≤ c.toNat && c.toNat ≤ 57 then some (c.toNat - 48) else none

/-- A valid YYYY-MM-DD string read back: exactly four digits, `-`, two digits, `-`, two
digits, naming a month from 1 to 12 and a day that month has in that year. -/
def parseYMD : List Char → Option (Nat × Nat × Nat)
  | [y1, y2, y3, y4, s1, m1, m2, s2, d1, d2] =>
    match digitVal y1, digitVal y2, digitVal y3, digitVal y4, digitVal m1, digitVal m2,
      digitVal d1, digitVal d2 with
    | some a, some b, some c, some d, some e, some f, some g, some h =>
      let y := a * 1000 + b * 100 + c * 10 + d
      let m := e * 10 + f
      let dd := g * 10 + h
      if s1 = '-' ∧ s2 = '-' ∧ 1 ≤ m ∧ m ≤ 12 ∧ 1 ≤ dd ∧ dd ≤ daysIn m (Int.ofNat y) then
        some (y, m, dd)
      else none
    | _, _, _, _, _, _, _, _ => none
  | _ => none

/-- The string is a valid YYYY-MM-DD date. -/
def isValidYMD (s : String) : Bool := (parseYMD s.data).isSome

/-! ## Shapes the struct decoder takes -/

/-- A member the decoder takes without error: its key is for no field, or its value is a
string or `null`. -/
def memberAccepted (m : String × JSON) : Bool :=
  match fieldFor m.1, m.2 with
  | none, _ => true
  | some _, JSON.str _ => true
  | some _, JSON.null => true
  | some _, _ => false

/-- A value the decoder takes without error: `null`, or an object of accepted members. -/
def shapeAccepted : JSON → Bool
  | JSON.obj members => members.all memberAccepted
  | JSON.null => true
  | _ => false

/-- The answers of the network on which `fetchData` yields a record: a response whose
body is read to the end, is valid JSON and has an accepted shape. The status code plays
no part. -/
def yieldsRecord : GetResult → Bool
  | GetResult.failed _ => false
  | GetResult.response _ ⟨_, some _⟩ => false
  | GetResult.response _ ⟨data, none⟩ =>
    match parseJSON data.data with
    | none => false
    | some j => shapeAccepted j

/-- The member of an object that is stored last to field `f`, if any. -/
def memberFor (f : Field) (members : List (String × JSON)) : Option JSON :=
  (members.reverse.find? (fun m => fieldFor m.1 == some f)).map Prod.snd

/-- Reading one field of the struct. -/
def response.get (v : response) (f : Field) : String :=
  match f with
  | Field.Date => v.Date
  | Field.Explanation => v.Explanation
  | Field.URL => v.URL
  | Field.Title => v.Title

/-! ## The page -/

/-- The escaper `html/template` applies to text in element content
(`htmlReplacementTable`). -/
def escapeHTML : List Char → List Char
  | [] => []
  | c :: cs =>
    (match c.toNat with
      | 0 => [replacementChar]
      | 34 => "&#34;".data
      | 38 => "&amp;".data
      | 39 => "&#39;".data
      | 43 => "&#43;".data
      | 60 => "&lt;".data
      | 62 => "&gt;".data
      | _ => [c]) ++ escapeHTML cs

/-- Modelled from the spec: the template `views/index.html` is not under src/. Of the
page the spec says that for a view context with a record it is rendered, so the
execution does not fail, and that it contains the title, the explanation and the url of
the record verbatim, with no change beyond the HTML escaping of the template package. -/
def pageShowsRecord (t : Template) : Prop :=
  ∀ (date : String) (r : response),
    (t ⟨date, some r⟩).err = none ∧
      List.IsInfix (escapeHTML r.Title.data) (t ⟨date, some r⟩).output.data ∧
      List.IsInfix (escapeHTML r.Explanation.data) (t ⟨date, some r⟩).output.data ∧
      List.IsInfix (escapeHTML r.URL.data) (t ⟨date, some r⟩).output.data

/-- Modelled from the spec: a page for the absent `views/index.html` that holds what the
spec says the page holds and no more: the date, then the title, the explanation and the
url of the record if there is one, each HTML-escaped and followed by a line feed. Its
execution does not fail. -/
def indexTemplate : Template := fun data =>
  { output := String.mk
      (escapeHTML data.Date.data ++ Char.ofNat 10 ::
        (match data.Result with
         | some r =>
           escapeHTML r.Title.data ++ Char.ofNat 10 ::
             (escapeHTML r.Explanation.data ++ Char.ofNat 10 ::
               (escapeHTML r.URL.data ++ [Char.ofNat 10]))
         | none => [])),
    err := none }

/-! ## Sample inputs for the closed instances -/

/-- A clock that always reads 1 January 2020. -/
def sampleClock : Nat → Time := fun _ => ⟨2020, 1, 1, by decide, by decide, by decide⟩

/-- A world in which nothing has happened yet and every `http.Get` is answered by `g`. -/
def sampleWorld (g : GetResult) : World :=
  { net := fun _ _ => g, followed := fun _ _ => [], clock := sampleClock, gets := [],
    sent := [], clockReads := 0, logs := [], executed := [] }

/-- A stand-in for the parsed template: it writes the date and the fields of the record,
one per line, and never fails. -/
def sampleTemplate : Template := fun data =>
  { output := data.Date ++ "\n" ++
      (match data.Result with
       | some r => r.Title ++ "\n" ++ r.Explanation ++ "\n" ++ r.URL
       | none => ""),
    err := none }

/-- A stand-in for a template whose execution fails after writing nothing. -/
def failingTemplate : Template := fun _ =>
  { output := "", err := some (GoError.template "template: index.html: execution failed") }

/-- A request whose form carries the field `date`. -/
def sampleContext (date : String) : Context := { form := [("date", date)] }

/-- The upstream body of the specification's example. -/
def sampleBody : String :=
  "\x7b\"date\":\"2020-01-01\",\"explanation\":\"E\",\"url\":\"http://x/img.jpg\",\"title\":\"T\"\x7d"

/-- The body of the specification's example with one more member, `"Title":5`, whose key
differs from the tag `title` in case only. -/
def sampleMixedCaseBody : String :=
  "\x7b\"date\":\"2020-01-01\",\"explanation\":\"E\",\"url\":\"http://x/img.jpg\",\"title\":\"T\",\"Title\":5\x7d"

/-- An upstream answer to a request it rejects: a JSON object with none of the four
fields. -/
def sampleErrorBody : String := "\x7b\"code\":400,\"msg\":\"Bad Request\"\x7d"

/-- The sample world with an upstream that redirects every request once. -/
def sampleRedirectWorld (g : GetResult) : World :=
  { sampleWorld g with followed := fun _ _ => ["https://apod.nasa.gov/apod/"] }

/-! ## Basic facts -/

theorem apodFormat_data : apodFormat.data =
    "https://api.nasa.gov/planetary/apod?api_key=".data ++
      ('%' :: 's' :: ("&date=".data ++ ['%', 's'])) := by
  rfl

theorem Sprintf_plain (cs : List Char) (h : '%' ∉ cs) (rest : List Char) (args : List String) :
    Sprintf (cs ++ rest) args = cs ++ Sprintf rest args := by
  induction cs with
  | nil => rfl
  | cons c cs ih =>
    have hc : c ≠ '%' := fun e => h (by simp [e])
    have hcs : '%' ∉ cs := fun e => h (by simp [e])
    rw [List.cons_append, Sprintf]
    · rw [ih hcs]; rfl
    all_goals (intros; simp_all)

theorem Sprintf_verb (rest : List Char) (a : String) (args : List String) :
    Sprintf ('%' :: 's' :: rest) (a :: args) = a.data ++ Sprintf rest args := by
  rw [Sprintf]

theorem requestURL_eq (c : apiClient) (date : String) :
    requestURL c date =
      "https://api.nasa.gov/planetary/apod?api_key=" ++ c.apiKey ++ "&date=" ++ date := by
  apply String.ext
  rw [requestURL, apodFormat_data]
  simp only [String.data_append]
  rw [Sprintf_plain "https://api.nasa.gov/planetary/apod?api_key=".data (by decide),
    Sprintf_verb, Sprintf_plain "&date=".data (by decide), Sprintf_verb]
  simp [Sprintf]

theorem fetchData_fst (c : apiClient) (date : String) (w : World) :
    (fetchData c date w).1 = afterGet (w.net w.gets.length (requestURL c date)) := rfl

theorem fetchData_snd (c : apiClient) (date : String) (w : World) :
    (fetchData c date w).2 = (httpGet (requestURL c date) w).2 := rfl

/-- A handler whose fetch fails is `handleError` on the world after the fetch. -/
theorem serve_of_error (r : Route) (c : apiClient) (t : Template) (ctx : Context) (w : World)
    (e : GoError)
    (h : (fetchData c (requestedDate r ctx w) (worldAtFetch r w)).1.2 = some e) :
    serve r c t ctx w =
      handleError ctx apiErrorMessage
        (fetchData c (requestedDate r ctx w) (worldAtFetch r w)).2 := by
  cases r
  · simp only [serve, handleRoot, requestedDate, worldAtFetch, timeNow] at h ⊢
    generalize fetchData c _ _ = x at h ⊢
    obtain ⟨⟨a, b⟩, w1⟩ := x
    simp only at h
    subst h
    rfl
  · simp only [serve, handlePost, requestedDate, worldAtFetch] at h ⊢
    generalize fetchData c _ _ = x at h ⊢
    obtain ⟨⟨a, b⟩, w1⟩ := x
    simp only at h
    subst h
    rfl

/-- A handler whose fetch succeeds is `Execute` on the requested date and the record. -/
theorem serve_of_ok (r : Route) (c : apiClient) (t : Template) (ctx : Context) (w : World)
    (h : (fetchData c (requestedDate r ctx w) (worldAtFetch r w)).1.2 = none) :
    serve r c t ctx w =
      Execute t ctx
        { Date := requestedDate r ctx w,
          Result := (fetchData c (requestedDate r ctx w) (worldAtFetch r w)).1.1 }
        (fetchData c (requestedDate r ctx w) (worldAtFetch r w)).2 := by
  cases r
  · simp only [serve, handleRoot, requestedDate, worldAtFetch, timeNow] at h ⊢
    generalize fetchData c _ _ = x at h ⊢
    obtain ⟨⟨a, b⟩, w1⟩ := x
    simp only at h
    subst h
    rfl
  · simp only [serve, handlePost, requestedDate, worldAtFetch] at h ⊢
    generalize fetchData c _ _ = x at h ⊢
    obtain ⟨⟨a, b⟩, w1⟩ := x
    simp only at h
    subst h
    rfl

/-- The network call a route makes, and its answer, seen from the world before. -/
theorem fetch_at_route (r : Route) (c : apiClient) (ctx : Context) (w : World) :
    (fetchData c (requestedDate r ctx w) (worldAtFetch r w)).1 =
        afterGet (w.net w.gets.length (requestURL c (requestedDate r ctx w))) ∧
      (fetchData c (requestedDate r ctx w) (worldAtFetch r w)).2.gets =
        w.gets ++ [requestURL c (requestedDate r ctx w)] := by
  cases r <;> exact ⟨rfl, rfl⟩

theorem requestURL_data (c : apiClient) (date : String) :
    (requestURL c date).data =
      "https://api.nasa.gov/planetary/apod".data ++
        '?' :: ("api_key=".data ++ c.apiKey.data ++ '&' :: ("date".data ++ '=' :: date.data)) := by
  rw [requestURL_eq]
  simp [String.data_append]

theorem bytesOf_append (a b : List Char) : bytesOf (a ++ b) = bytesOf a ++ bytesOf b := by
  induction a with
  | nil => rfl
  | cons c cs ih => simp [bytesOf, ih]

theorem mem_utf8 (n b : Nat) (h : b ∈ utf8 n) (hb : b < 0x80) : b = n := by
  unfold utf8 at h
  split at h
  · simpa using h
  · split at h
    · simp only [List.mem_cons, List.mem_singleton, List.not_mem_nil, or_false] at h
      omega
    · split at h
      · simp only [List.mem_cons, List.mem_singleton, List.not_mem_nil, or_false] at h
        omega
      · simp only [List.mem_cons, List.mem_singleton, List.not_mem_nil, or_false] at h
        omega

theorem not_mem_bytesOf (l : List Char) (b : Nat) (hb : b < 0x80)
    (h : ∀ c ∈ l, c.toNat ≠ b) : b ∉ bytesOf l := by
  induction l with
  | nil => simp [bytesOf]
  | cons c cs ih =>
    simp only [bytesOf, List.mem_append, not_or]
    refine ⟨fun hm => h c (by simp) (mem_utf8 _ _ hm hb).symm, ih fun x hx => h x (by simp [hx])⟩

theorem no_ctl_bytesOf (l : List Char) (h : ∀ c ∈ l, 0x20 ≤ c.toNat ∧ c.toNat ≠ 0x7f) :
    (bytesOf l).any isCTL = false := by
  rw [List.any_eq_false]
  intro b hb hctl
  have hlt : b < 0x80 := by
    simp only [isCTL, Bool.or_eq_true, decide_eq_true_eq, beq_iff_eq] at hctl
    omega
  have hmem : ¬ b ∉ bytesOf l := fun hn => hn hb
  apply hmem
  apply not_mem_bytesOf l b hlt
  intro c hc e
  have := h c hc
  simp only [isCTL, Bool.or_eq_true, decide_eq_true_eq, beq_iff_eq] at hctl
  omega

theorem toNat_ne_of_ne (c x : Char) (h : c ≠ x) : c.toNat ≠ x.toNat := by
  intro e
  apply h
  rw [← Char.ofNat_toNat c, ← Char.ofNat_toNat x, e]

theorem cut_append (sep : Nat) (a b : List Nat) (h : sep ∉ a) :
    cut sep (a ++ sep :: b) = (a, b) := by
  induction a with
  | nil => simp [cut]
  | cons c cs ih =>
    have hc : c ≠ sep := fun e => h (by simp [e])
    have hcs : sep ∉ cs := fun e => h (by simp [e])
    simp [cut, hc, ih hcs]

theorem cut_none (sep : Nat) (a : List Nat) (h : sep ∉ a) : cut sep a = (a, []) := by
  induction a with
  | nil => simp [cut]
  | cons c cs ih =>
    have hc : c ≠ sep := fun e => h (by simp [e])
    have hcs : sep ∉ cs := fun e => h (by simp [e])
    simp [cut, hc, ih hcs]

theorem splitAll_none (sep : Nat) (a : List Nat) (h : sep ∉ a) : splitAll sep a = [a] := by
  induction a with
  | nil => simp [splitAll]
  | cons c cs ih =>
    have hc : c ≠ sep := fun e => h (by simp [e])
    have hcs : sep ∉ cs := fun e => h (by simp [e])
    simp [splitAll, hc, ih hcs]

theorem splitAll_append (sep : Nat) (a b : List Nat) (h : sep ∉ a) :
    splitAll sep (a ++ sep :: b) = a :: splitAll sep b := by
  induction a with
  | nil => simp [splitAll]
  | cons c cs ih =>
    have hc : c ≠ sep := fun e => h (by simp [e])
    have hcs : sep ∉ cs := fun e => h (by simp [e])
    simp [splitAll, hc, ih hcs]

theorem QueryUnescape_plain (a : List Nat) (h1 : 37 ∉ a) (h2 : 43 ∉ a) :
    QueryUnescape a = some a := by
  induction a with
  | nil => simp [QueryUnescape]
  | cons c cs ih =>
    have hc1 : c ≠ 37 := fun e => h1 (by simp [e])
    have hc2 : c ≠ 43 := fun e => h2 (by simp [e])
    have hcs1 : 37 ∉ cs := fun e => h1 (by simp [e])
    have hcs2 : 43 ∉ cs := fun e => h2 (by simp [e])
    rw [QueryUnescape]
    · rw [ih hcs1 hcs2]; rfl
    all_goals (intros; simp_all)

theorem requestURL_bytes (c : apiClient) (date : String) :
    bytes (requestURL c date) =
      bytes "https://api.nasa.gov/planetary/apod" ++
        63 :: (bytes "api_key" ++ 61 :: bytes c.apiKey ++
          38 :: (bytes "date" ++ 61 :: bytes date)) := by
  simp only [bytes]
  rw [requestURL_data]
  simp [bytesOf_append, bytesOf, utf8]

/-- The calls of `http.Get` after a route has handled one request. -/
theorem serve_gets (r : Route) (c : apiClient) (t : Template) (ctx : Context) (w : World) :
    (serve r c t ctx w).world.gets = w.gets ++ [requestURL c (requestedDate r ctx w)] := by
  have hf := fetch_at_route r c ctx w
  cases hres : (fetchData c (requestedDate r ctx w) (worldAtFetch r w)).1.2 with
  | none => rw [serve_of_ok r c t ctx w hres]; exact hf.2
  | some e => rw [serve_of_error r c t ctx w e hres]; exact hf.2

theorem get_setField (v : response) (f g : Field) (s : String) :
    (setField v g s).get f = if f = g then s else v.get f := by
  cases f <;> cases g <;> rfl

theorem response_ext_get (a b : response) (h : ∀ f, a.get f = b.get f) : a = b := by
  have h1 := h Field.Date
  have h2 := h Field.Explanation
  have h3 := h Field.URL
  have h4 := h Field.Title
  cases a; cases b
  simp only [response.get] at h1 h2 h3 h4
  simp [h1, h2, h3, h4]

theorem memberFor_snoc (f : Field) (ms : List (String × JSON)) (m : String × JSON) :
    memberFor f (ms ++ [m]) =
      if fieldFor m.1 = some f then some m.2 else memberFor f ms := by
  simp only [memberFor, List.reverse_append, List.reverse_cons, List.reverse_nil,
    List.nil_append, List.singleton_append, List.find?_cons]
  by_cases h : fieldFor m.1 = some f
  · simp [h]
  · have : (fieldFor m.1 == some f) = false := by simpa using h
    simp [h, this]

/-- The struct decoder on an object whose members for the fields are all strings: no
error, and each field holds the string stored to it last (or what it held before). -/
theorem foldl_storeMember_strings (ms : List (String × JSON)) (v : response)
    (hstr : ∀ m ∈ ms, fieldFor m.1 ≠ none → ∃ s, m.2 = JSON.str s) :
    (ms.foldl storeMember (v, none)).2 = none ∧
      ∀ f, (ms.foldl storeMember (v, none)).1.get f =
        match memberFor f ms with
        | some (JSON.str s) => s
        | _ => v.get f := by
  induction ms using List.reverseRecOn with
  | nil => exact ⟨rfl, fun f => rfl⟩
  | append_singleton ms m ih =>
    have ih1 := ih (fun x hx => hstr x (by simp [hx]))
    rw [List.foldl_append]
    simp only [List.foldl_cons, List.foldl_nil]
    cases hf : fieldFor m.1 with
    | none =>
      simp only [storeMember, hf]
      refine ⟨ih1.1, fun f => ?_⟩
      rw [memberFor_snoc, hf]
      simpa using ih1.2 f
    | some g =>
      obtain ⟨s, hs⟩ := hstr m (by simp) (by simp [hf])
      simp only [storeMember, hf, hs]
      refine ⟨ih1.1, fun f => ?_⟩
      rw [memberFor_snoc, hf, get_setField, hs]
      by_cases hfg : f = g
      · subst hfg; simp
      · have : ¬ (some g = some f) := fun e => hfg (Option.some.inj e).symm
        simp only [hfg, this, if_false]
        exact ih1.2 f

theorem saveError_ne_none (saved : Option GoError) (e : GoError) : saveError saved e ≠ none := by
  cases saved <;> simp [saveError]

theorem storeMember_snd (st : response × Option GoError) (m : String × JSON) :
    (storeMember st m).2 = none ↔ st.2 = none ∧ memberAccepted m = true := by
  obtain ⟨k, j⟩ := m
  simp only [storeMember, memberAccepted]
  cases hf : fieldFor k with
  | none => simp
  | some f => cases j <;> simp [saveError_ne_none]

theorem foldl_storeMember_snd (ms : List (String × JSON)) (st : response × Option GoError) :
    (ms.foldl storeMember st).2 = none ↔ st.2 = none ∧ ms.all memberAccepted = true := by
  induction ms generalizing st with
  | nil => simp
  | cons m ms ih =>
    rw [List.foldl_cons, ih, storeMember_snd]
    simp [and_assoc]

theorem decodeValue_snd (j : JSON) (v : response) :
    (decodeValue j v).2 = none ↔ shapeAccepted j = true := by
  cases j <;> simp [decodeValue, shapeAccepted, foldl_storeMember_snd]

theorem afterGet_snd (g : GetResult) : (afterGet g).2 = none ↔ yieldsRecord g = true := by
  cases g with
  | failed e => simp [afterGet, yieldsRecord]
  | response st Body =>
    obtain ⟨data, err⟩ := Body
    cases err with
    | some e => simp [afterGet, yieldsRecord, readAll]
    | none =>
      simp only [afterGet, readAll, yieldsRecord, Option.getD_some]
      cases hp : parseJSON data.data with
      | none => simp [Unmarshal, hp]
      | some j =>
        have hU : Unmarshal data ⟨"", "", "", ""⟩ = decodeValue j ⟨"", "", "", ""⟩ := by
          simp [Unmarshal, hp]
        rw [hU]
        have hd := decodeValue_snd j ⟨"", "", "", ""⟩
        rcases hv : decodeValue j ⟨"", "", "", ""⟩ with ⟨res, _ | e⟩
        · rw [hv] at hd; simpa using hd
        · rw [hv] at hd; simpa using hd

theorem afterGet_fst (g : GetResult) : (afterGet g).1 = none ↔ (afterGet g).2 ≠ none := by
  cases g with
  | failed e => simp [afterGet]
  | response st Body =>
    obtain ⟨data, err⟩ := Body
    cases err with
    | some e => simp [afterGet, readAll]
    | none =>
      simp only [afterGet, readAll, Option.getD_some]
      rcases Unmarshal data ⟨"", "", "", ""⟩ with ⟨res, _ | e⟩ <;> simp

theorem afterGet_status (st st2 : Nat) (Body : Reader) :
    afterGet (GetResult.response st Body) = afterGet (GetResult.response st2 Body) := rfl

/-- What a route does, by what `fetchData` makes of the network's answer. -/
theorem serve_spec (r : Route) (c : apiClient) (t : Template) (ctx : Context) (w : World) :
    ((afterGet (w.net w.gets.length (requestURL c (requestedDate r ctx w)))).2 = none →
      (serve r c t ctx w).err =
          (t ⟨requestedDate r ctx w,
            (afterGet (w.net w.gets.length (requestURL c (requestedDate r ctx w)))).1⟩).err ∧
        (serve r c t ctx w).reply =
          ⟨none, none, (t ⟨requestedDate r ctx w,
            (afterGet (w.net w.gets.length (requestURL c (requestedDate r ctx w)))).1⟩).output⟩ ∧
        (serve r c t ctx w).world.executed =
          w.executed ++ [⟨requestedDate r ctx w,
            (afterGet (w.net w.gets.length (requestURL c (requestedDate r ctx w)))).1⟩] ∧
        (serve r c t ctx w).world.logs = w.logs) ∧
    ((afterGet (w.net w.gets.length (requestURL c (requestedDate r ctx w)))).2 ≠ none →
      (serve r c t ctx w).err = none ∧
        (serve r c t ctx w).reply =
          ⟨some 500, some "text/plain; charset=UTF-8", "APIリクエストエラー"⟩ ∧
        (serve r c t ctx w).world.executed = w.executed ∧
        (serve r c t ctx w).world.logs = w.logs ++ ["エラー: APIリクエストエラー"]) := by
  have hf := (fetch_at_route r c ctx w).1
  constructor
  · intro h
    have h1 : (fetchData c (requestedDate r ctx w) (worldAtFetch r w)).1.2 = none := by
      rw [hf, h]
    rw [serve_of_ok r c t ctx w h1, hf]
    cases r <;> exact ⟨rfl, rfl, rfl, rfl⟩
  · intro h
    obtain ⟨e, he⟩ := Option.ne_none_iff_exists'.mp h
    have h1 : (fetchData c (requestedDate r ctx w) (worldAtFetch r w)).1.2 = some e := by
      rw [hf, he]
    rw [serve_of_error r c t ctx w e h1]
    cases r <;> exact ⟨rfl, rfl, rfl, rfl⟩

theorem serve_clockReads (r : Route) (c : apiClient) (t : Template) (ctx : Context)
    (w : World) :
    (serve r c t ctx w).world.clockReads =
      match r with
      | Route.root => w.clockReads + 1
      | Route.post => w.clockReads := by
  cases hres : (fetchData c (requestedDate r ctx w) (worldAtFetch r w)).1.2 with
  | none => rw [serve_of_ok r c t ctx w hres]; cases r <;> rfl
  | some e => rw [serve_of_error r c t ctx w e hres]; cases r <;> rfl

/-- The record `fetchData` makes of an object with string fields. -/
theorem afterGet_strings (status : Nat) (body : String) (members : List (String × JSON))
    (dt ex u ti : String)
    (hobj : parseJSON body.data = some (JSON.obj members))
    (hstr : ∀ m ∈ members, fieldFor m.1 ≠ none → ∃ s, m.2 = JSON.str s)
    (hdate : memberFor Field.Date members = some (JSON.str dt))
    (hexpl : memberFor Field.Explanation members = some (JSON.str ex))
    (hurl : memberFor Field.URL members = some (JSON.str u))
    (htitle : memberFor Field.Title members = some (JSON.str ti)) :
    afterGet (GetResult.response status ⟨body, none⟩) = (some ⟨dt, ex, u, ti⟩, none) := by
  have hfold := foldl_storeMember_strings members ⟨"", "", "", ""⟩ hstr
  have hU : Unmarshal body ⟨"", "", "", ""⟩ =
      members.foldl storeMember (⟨"", "", "", ""⟩, none) := by
    simp [Unmarshal, hobj, decodeValue]
  have hrec : (members.foldl storeMember (⟨"", "", "", ""⟩, none)).1 = ⟨dt, ex, u, ti⟩ := by
    apply response_ext_get
    intro f
    rw [hfold.2 f]
    cases f
    · rw [hdate]; rfl
    · rw [hexpl]; rfl
    · rw [hurl]; rfl
    · rw [htitle]; rfl
  simp only [afterGet, readAll, Option.getD_some, hU]
  rcases hv : members.foldl storeMember (⟨"", "", "", ""⟩, none) with ⟨res, _ | e⟩
  · rw [hv] at hrec
    simp only at hrec
    simp [hrec]
  · rw [hv] at hfold
    simp at hfold

theorem memberAccepted_iff (m : String × JSON) :
    memberAccepted m = true ↔
      (fieldFor m.1 ≠ none → (∃ s, m.2 = JSON.str s) ∨ m.2 = JSON.null) := by
  obtain ⟨k, j⟩ := m
  simp only [memberAccepted]
  cases hf : fieldFor k with
  | none => simp
  | some f => cases j <;> simp

theorem shapeAccepted_iff (j : JSON) :
    shapeAccepted j = true ↔
      (j = JSON.null ∨ ∃ members, j = JSON.obj members ∧
        ∀ m ∈ members, fieldFor m.1 ≠ none → (∃ s, m.2 = JSON.str s) ∨ m.2 = JSON.null) := by
  cases j with
  | obj members =>
    simp only [shapeAccepted, List.all_eq_true, memberAccepted_iff]
    constructor
    · intro h; exact Or.inr ⟨members, rfl, h⟩
    · rintro (h | ⟨ms, h, hm⟩)
      · cases h
      · cases h; exact hm
  | null => simp [shapeAccepted]
  | bool b => simp [shapeAccepted]
  | num n => simp [shapeAccepted]
  | str x => simp [shapeAccepted]
  | arr xs => simp [shapeAccepted]

theorem yieldsRecord_iff (g : GetResult) :
    yieldsRecord g = true ↔
      ∃ status data j, g = GetResult.response status ⟨data, none⟩ ∧
        parseJSON data.data = some j ∧ shapeAccepted j = true := by
  cases g with
  | failed e => simp [yieldsRecord]
  | response st Body =>
    obtain ⟨data, err⟩ := Body
    cases err with
    | some e => simp [yieldsRecord]
    | none =>
      simp only [yieldsRecord]
      cases hp : parseJSON data.data with
      | none => simp [hp]
      | some j =>
        constructor
        · intro h; exact ⟨st, data, j, rfl, hp, h⟩
        · rintro ⟨st2, data2, j2, hg, hp2, h⟩
          cases hg
          rw [hp] at hp2
          cases hp2
          exact h

theorem requestedDate_answering (r : Route) (ctx : Context) (w : World) (g : GetResult) :
    requestedDate r ctx (w.answering g) = requestedDate r ctx w := by
  cases r <;> rfl

theorem Format_DateFormat (t : Time) :
    Format t DateFormat.data =
      appendInt t.year 4 ++ '-' :: (appendInt (Int.ofNat t.month) 2 ++
        '-' :: (appendInt (Int.ofNat t.day) 2 ++ [])) := by
  rfl

theorem digitVal_digitChar (n : Nat) (h : n < 10) : digitVal (digitChar n) = some n := by
  interval_cases n <;> rfl

theorem appendInt_year (y : Int) (h0 : 0 ≤ y) (h1 : y ≤ 9999) :
    appendInt y 4 =
      [digitChar (y.toNat / 1000), digitChar (y.toNat / 100 % 10),
        digitChar (y.toNat / 10 % 10), digitChar (y.toNat % 10)] := by
  have hn : y.natAbs = y.toNat := by omega
  have hlt : y.toNat < 10000 := by omega
  have hneg : ¬ y < 0 := by omega
  simp [appendInt, hn, hlt, hneg]

theorem appendInt_two (n : Nat) (h : n < 100) :
    appendInt (Int.ofNat n) 2 = [digitChar (n / 10), digitChar (n % 10)] := by
  have hneg : ¬ (Int.ofNat n) < 0 := by
    have : (0 : Int) ≤ Int.ofNat n := Int.ofNat_nonneg n
    omega
  simp [appendInt, h, hneg]

theorem daysIn_le (m : Nat) (y : Int) : daysIn m y ≤ 31 := by
  unfold daysIn
  split
  · omega
  · split <;> omega

/-- The formatted clock reading reads back as the date of the reading, for years of at
most four digits. -/
theorem parseYMD_Format (t : Time) (h0 : 0 ≤ t.year) (h1 : t.year ≤ 9999) :
    parseYMD (Format t DateFormat.data) = some (t.year.toNat, t.month, t.day) := by
  have hm := t.month_range
  have hd := t.day_range
  have hd31 := daysIn_le t.month t.year
  have hy : Int.ofNat t.year.toNat = t.year := by
    simp only [Int.ofNat_eq_coe]; omega
  have hylt : t.year.toNat < 10000 := by omega
  rw [Format_DateFormat, appendInt_year t.year h0 h1, appendInt_two t.month (by omega),
    appendInt_two t.day (by omega)]
  simp only [List.cons_append, List.nil_append, List.append_nil, parseYMD]
  rw [digitVal_digitChar _ (by omega), digitVal_digitChar _ (by omega),
    digitVal_digitChar _ (by omega), digitVal_digitChar _ (by omega),
    digitVal_digitChar _ (by omega), digitVal_digitChar _ (by omega),
    digitVal_digitChar _ (by omega), digitVal_digitChar _ (by omega)]
  have e1 : t.year.toNat / 1000 * 1000 + t.year.toNat / 100 % 10 * 100 +
      t.year.toNat / 10 % 10 * 10 + t.year.toNat % 10 = t.year.toNat := by omega
  have e2 : t.month / 10 * 10 + t.month % 10 = t.month := by omega
  have e3 : t.day / 10 * 10 + t.day % 10 = t.day := by omega
  simp only [e1, e2, e3, hy]
  rw [if_pos ⟨trivial, trivial, hm.1, hm.2, hd.1, hd.2⟩]

/-- The request for the URL goes out and its query reads back as the date, when neither
the key nor the date holds a byte with a meaning in a URL or on the request line. -/
theorem receivedParam_requestURL (c : apiClient) (date : String)
    (hk : ∀ ch ∈ c.apiKey.data, ch ≠ '#' ∧ ch ≠ '&' ∧ 32 < ch.toNat ∧ ch.toNat ≠ 127)
    (hd : ∀ ch ∈ date.data, ch ≠ '&' ∧ ch ≠ '#' ∧ ch ≠ '%' ∧ ch ≠ '+' ∧ ch ≠ ';' ∧
      32 < ch.toNat ∧ ch.toNat ≠ 127) :
    urlRefused (requestURL c date) = false ∧
      receivedParam "date" (requestURL c date) = some (bytes date) := by
  have key (b : Nat) (hb : b < 0x80) (x : Char) (hx : x.toNat = b)
      (h : ∀ ch ∈ c.apiKey.data, ch ≠ x) : b ∉ bytes c.apiKey :=
    not_mem_bytesOf _ b hb fun ch hch => hx ▸ toNat_ne_of_ne ch x (h ch hch)
  have dat (b : Nat) (hb : b < 0x80) (x : Char) (hx : x.toNat = b)
      (h : ∀ ch ∈ date.data, ch ≠ x) : b ∉ bytes date :=
    not_mem_bytesOf _ b hb fun ch hch => hx ▸ toNat_ne_of_ne ch x (h ch hch)
  have hkhash : 35 ∉ bytes c.apiKey := key 35 (by decide) '#' rfl fun ch h => (hk ch h).1
  have hkamp : 38 ∉ bytes c.apiKey := key 38 (by decide) '&' rfl fun ch h => (hk ch h).2.1
  have hksp : 32 ∉ bytes c.apiKey :=
    not_mem_bytesOf _ 32 (by decide) fun ch h => by have := (hk ch h).2.2.1; omega
  have hkctl : (bytes c.apiKey).any isCTL = false :=
    no_ctl_bytesOf _ fun ch h => ⟨by have := (hk ch h).2.2.1; omega, (hk ch h).2.2.2⟩
  have hamp : 38 ∉ bytes date := dat 38 (by decide) '&' rfl fun ch h => (hd ch h).1
  have hhash : 35 ∉ bytes date := dat 35 (by decide) '#' rfl fun ch h => (hd ch h).2.1
  have hpct : 37 ∉ bytes date := dat 37 (by decide) '%' rfl fun ch h => (hd ch h).2.2.1
  have hplus : 43 ∉ bytes date := dat 43 (by decide) '+' rfl fun ch h => (hd ch h).2.2.2.1
  have hsemi : 59 ∉ bytes date := dat 59 (by decide) ';' rfl fun ch h => (hd ch h).2.2.2.2.1
  have hsp : 32 ∉ bytes date :=
    not_mem_bytesOf _ 32 (by decide) fun ch h => by have := (hd ch h).2.2.2.2.2.1; omega
  have hctl : (bytes date).any isCTL = false :=
    no_ctl_bytesOf _ fun ch h =>
      ⟨by have := (hd ch h).2.2.2.2.2.1; omega, (hd ch h).2.2.2.2.2.2⟩
  have hfrag : cut 35 (bytes (requestURL c date)) = (bytes (requestURL c date), []) := by
    apply cut_none
    rw [requestURL_bytes]
    simp only [List.mem_append, List.mem_cons, not_or]
    exact ⟨by decide, by decide, ⟨by decide, by decide, hkhash⟩, by decide, by decide,
      by decide, hhash⟩
  have hnoctl : (bytes (requestURL c date)).any isCTL = false := by
    rw [requestURL_bytes]
    simp only [List.any_append, List.any_cons, hkctl, hctl, Bool.or_false, Bool.false_or]
    decide
  have hparse : parseRawQuery (bytes (requestURL c date)) =
      some ((bytes "api_key" ++ 61 :: bytes c.apiKey) ++
        38 :: (bytes "date" ++ 61 :: bytes date)) := by
    rw [parseRawQuery, hfrag]
    simp only [hnoctl, validEscapes, if_true, Bool.false_eq_true, if_false]
    rw [requestURL_bytes, cut_append _ _ _ (by decide)]
  have hspace : 32 ∉ (bytes "api_key" ++ 61 :: bytes c.apiKey) ++
      38 :: (bytes "date" ++ 61 :: bytes date) := by
    simp only [List.mem_append, List.mem_cons, not_or]
    exact ⟨⟨by decide, by decide, hksp⟩, by decide, by decide, by decide, hsp⟩
  have hsplit : splitAll 38 ((bytes "api_key" ++ 61 :: bytes c.apiKey) ++
      38 :: (bytes "date" ++ 61 :: bytes date)) =
      [bytes "api_key" ++ 61 :: bytes c.apiKey, bytes "date" ++ 61 :: bytes date] := by
    rw [splitAll_append, splitAll_none]
    · simp only [List.mem_append, List.mem_cons, not_or]
      exact ⟨by decide, by decide, hamp⟩
    · simp only [List.mem_append, List.mem_cons, not_or]
      exact ⟨by decide, by decide, hkamp⟩
  have hdate : parsePair (bytes "date" ++ 61 :: bytes date) =
      some (bytes "date", bytes date) := by
    have h1 : 59 ∉ bytes "date" ++ 61 :: bytes date := by
      simp only [List.mem_append, List.mem_cons, not_or]
      exact ⟨by decide, by decide, hsemi⟩
    have h2 : bytes "date" ++ 61 :: bytes date ≠ [] := by
      intro h; simp at h
    rw [parsePair, if_neg h1, if_neg h2, cut_append _ _ _ (by decide)]
    simp only
    rw [QueryUnescape_plain _ (by decide) (by decide), QueryUnescape_plain _ hpct hplus]
  have hkey : parsePair (bytes "api_key" ++ 61 :: bytes c.apiKey) = none ∨
      ∃ v, parsePair (bytes "api_key" ++ 61 :: bytes c.apiKey) = some (bytes "api_key", v) := by
    rw [parsePair]
    split
    · exact Or.inl rfl
    · split
      · exact Or.inl rfl
      · rw [cut_append _ _ _ (by decide)]
        simp only
        rw [QueryUnescape_plain (bytes "api_key") (by decide) (by decide)]
        cases QueryUnescape (bytes c.apiKey) with
        | none => exact Or.inl rfl
        | some v => exact Or.inr ⟨v, rfl⟩
  refine ⟨by rw [urlRefused, hparse]; rfl, ?_⟩
  rw [receivedParam, hparse]
  simp only
  rw [if_neg hspace, ParseQuery, hsplit]
  rcases hkey with h | ⟨v, h⟩
  · rw [List.filterMap_cons, h, List.filterMap_cons, hdate, List.filterMap_nil]
    rfl
  · rw [List.filterMap_cons, h, List.filterMap_cons, hdate, List.filterMap_nil]
    rfl

/-- The requests on the wire after a route has handled one request. -/
theorem serve_sent (r : Route) (c : apiClient) (t : Template) (ctx : Context) (w : World) :
    (serve r c t ctx w).world.sent =
      w.sent ++
        (if urlRefused (requestURL c (requestedDate r ctx w)) then []
         else requestURL c (requestedDate r ctx w) ::
           w.followed w.gets.length (requestURL c (requestedDate r ctx w))) := by
  cases hres : (fetchData c (requestedDate r ctx w) (worldAtFetch r w)).1.2 with
  | none => rw [serve_of_ok r c t ctx w hres]; cases r <;> rfl
  | some e => rw [serve_of_error r c t ctx w e hres]; cases r <;> rfl

theorem indexTemplate_shows : pageShowsRecord indexTemplate := by
  intro date r
  refine ⟨rfl, ?_, ?_, ?_⟩
  · exact ⟨escapeHTML date.data ++ [Char.ofNat 10],
      Char.ofNat 10 :: (escapeHTML r.Explanation.data ++ Char.ofNat 10 ::
        (escapeHTML r.URL.data ++ [Char.ofNat 10])), by simp [indexTemplate]⟩
  · exact ⟨escapeHTML date.data ++ Char.ofNat 10 :: (escapeHTML r.Title.data ++
      [Char.ofNat 10]), Char.ofNat 10 :: (escapeHTML r.URL.data ++ [Char.ofNat 10]),
      by simp [indexTemplate]⟩
  · exact ⟨escapeHTML date.data ++ Char.ofNat 10 :: (escapeHTML r.Title.data ++
      Char.ofNat 10 :: (escapeHTML r.Explanation.data ++ [Char.ofNat 10])),
      [Char.ofNat 10], by simp [indexTemplate]⟩

/-! ## The claims -/

/-- C9: for every API key `k` and date string `d`, the URL `fetchData` hands to
`http.Get` is exactly `"https://api.nasa.gov/planetary/apod?api_key=" ++ k ++ "&date=" ++ d`
(nothing escaped, trimmed or checked), whatever the state of the world. -/
theorem fetchData_url_verbatim (c : apiClient) (date : String) (w : World) :
    (fetchData c date w).2.gets =
      w.gets ++
        ["https://api.nasa.gov/planetary/apod?api_key=" ++ c.apiKey ++ "&date=" ++ date] := by
  rw [fetchData_snd, requestURL_eq]
  rfl

/-- C2: on either route and for every requested date, when `fetchData` returns an error
the handler returns nil, its reply is status 500 with content type text/plain and the
fixed body "APIリクエストエラー" (the same for every error and date), the template is
not executed, and one line is logged. -/
theorem serve_fetch_error_reply (r : Route) (c : apiClient) (t : Template) (ctx : Context)
    (w : World) (e : GoError)
    (h : (fetchData c (requestedDate r ctx w) (worldAtFetch r w)).1.2 = some e) :
    (serve r c t ctx w).err = none ∧
      (serve r c t ctx w).reply =
        { status := some 500, contentType := some "text/plain; charset=UTF-8",
          body := "APIリクエストエラー" } ∧
      (serve r c t ctx w).world.executed = w.executed ∧
      (serve r c t ctx w).world.logs = w.logs ++ ["エラー: APIリクエストエラー"] := by
  rw [serve_of_error r c t ctx w e h]
  cases r <;> exact ⟨rfl, rfl, rfl, rfl⟩

/-- C2, closed instance: the submit route, the network refusing the connection. -/
theorem serve_fetch_error_reply_witness :
    (fetchData ⟨"DEMO_KEY"⟩ (requestedDate Route.post (sampleContext "2020-01-01")
        (sampleWorld (GetResult.failed (GoError.transport "connection refused"))))
      (worldAtFetch Route.post
        (sampleWorld (GetResult.failed (GoError.transport "connection refused"))))).1.2 =
        some (GoError.transport "connection refused") ∧
    (serve Route.post ⟨"DEMO_KEY"⟩ sampleTemplate (sampleContext "2020-01-01")
        (sampleWorld (GetResult.failed (GoError.transport "connection refused")))).reply =
      { status := some 500, contentType := some "text/plain; charset=UTF-8",
        body := "APIリクエストエラー" } :=
  ⟨rfl, (serve_fetch_error_reply Route.post ⟨"DEMO_KEY"⟩ sampleTemplate
    (sampleContext "2020-01-01")
    (sampleWorld (GetResult.failed (GoError.transport "connection refused")))
    (GoError.transport "connection refused") rfl).2.1⟩

set_option maxRecDepth 100000 in
/-- C10 as stated fails: for the form date `a\nb` the URL holds a control character,
`http.Get` refuses it and no GET goes out; and when the upstream redirects, the one call
of `http.Get` puts two GETs on the wire. -/
theorem serve_sends_none_or_several :
    (serve Route.post ⟨"DEMO_KEY"⟩ sampleTemplate (sampleContext "a\nb")
        (sampleWorld (GetResult.failed
          (GoError.transport "net/url: invalid control character in URL")))).world.sent = [] ∧
    (serve Route.post ⟨"DEMO_KEY"⟩ sampleTemplate (sampleContext "2020-01-01")
        (sampleRedirectWorld (GetResult.response 200 ⟨sampleBody, none⟩))).world.sent =
      ["https://api.nasa.gov/planetary/apod?api_key=DEMO_KEY&date=2020-01-01",
        "https://apod.nasa.gov/apod/"] := by
  decide

/-- C10 (amended): on either route, handling one request makes exactly one call of
`http.Get` (on the URL of the requested date), whatever the network answers: nothing is
retried and no second call is made. On the wire that call puts no GET when the URL is
refused, and otherwise one GET for the URL and one for each redirect the client follows.
The handler's return value and reply in any other world, such as the one a failed request
left behind, are the same as soon as the network's answer and the clock reading are the
same. -/
theorem serve_one_get_no_state (r : Route) (c : apiClient) (t : Template) (ctx : Context)
    (w w2 : World) (hnet : w2.net w2.gets.length = w.net w.gets.length)
    (hclock : w2.clock w2.clockReads = w.clock w.clockReads) :
    (serve r c t ctx w).world.gets = w.gets ++ [requestURL c (requestedDate r ctx w)] ∧
      (serve r c t ctx w).world.sent =
        w.sent ++
          (if urlRefused (requestURL c (requestedDate r ctx w)) then []
           else requestURL c (requestedDate r ctx w) ::
             w.followed w.gets.length (requestURL c (requestedDate r ctx w))) ∧
      (serve r c t ctx w2).err = (serve r c t ctx w).err ∧
      (serve r c t ctx w2).reply = (serve r c t ctx w).reply := by
  have hd : requestedDate r ctx w2 = requestedDate r ctx w := by
    cases r
    · simp only [requestedDate, hclock]
    · rfl
  have hf := fetch_at_route r c ctx w
  have hf2 := fetch_at_route r c ctx w2
  rw [hd, hnet] at hf2
  refine ⟨serve_gets r c t ctx w, serve_sent r c t ctx w, ?_⟩
  cases hres : (afterGet (w.net w.gets.length (requestURL c (requestedDate r ctx w)))).2 with
  | none =>
    have h1 : (fetchData c (requestedDate r ctx w) (worldAtFetch r w)).1.2 = none := by
      rw [hf.1, hres]
    have h2 : (fetchData c (requestedDate r ctx w2) (worldAtFetch r w2)).1.2 = none := by
      rw [hd, hf2.1, hres]
    rw [serve_of_ok r c t ctx w h1, serve_of_ok r c t ctx w2 h2]
    refine ⟨?_, ?_⟩
    · simp only [Execute, hd, hf.1, hf2.1]
    · simp only [Execute, hd, hf.1, hf2.1]
  | some e =>
    have h1 : (fetchData c (requestedDate r ctx w) (worldAtFetch r w)).1.2 = some e := by
      rw [hf.1, hres]
    have h2 : (fetchData c (requestedDate r ctx w2) (worldAtFetch r w2)).1.2 = some e := by
      rw [hd, hf2.1, hres]
    rw [serve_of_error r c t ctx w e h1, serve_of_error r c t ctx w2 e h2]
    exact ⟨rfl, rfl⟩

set_option maxRecDepth 100000 in
/-- C10 (amended), closed instance: the submit route in the world a failed request left
behind, once the network answers again, replies as in a world where nothing has happened,
and there one call and one GET are made. -/
theorem serve_one_get_no_state_witness :
    (((serve Route.post ⟨"DEMO_KEY"⟩ sampleTemplate (sampleContext "2020-01-01")
          (sampleWorld (GetResult.failed (GoError.transport "timeout")))).world.answering
        (GetResult.response 200 ⟨sampleBody, none⟩)).net 1 =
      (sampleWorld (GetResult.response 200 ⟨sampleBody, none⟩)).net 0) ∧
    (((serve Route.post ⟨"DEMO_KEY"⟩ sampleTemplate (sampleContext "2020-01-01")
          (sampleWorld (GetResult.failed (GoError.transport "timeout")))).world.answering
        (GetResult.response 200 ⟨sampleBody, none⟩)).clock 0 = sampleClock 0) ∧
      (serve Route.post ⟨"DEMO_KEY"⟩ sampleTemplate (sampleContext "2020-01-01")
          (sampleWorld (GetResult.response 200 ⟨sampleBody, none⟩))).world.gets =
        [] ++ [requestURL ⟨"DEMO_KEY"⟩ "2020-01-01"] ∧
      (serve Route.post ⟨"DEMO_KEY"⟩ sampleTemplate (sampleContext "2020-01-01")
          (sampleWorld (GetResult.response 200 ⟨sampleBody, none⟩))).world.sent =
        ["https://api.nasa.gov/planetary/apod?api_key=DEMO_KEY&date=2020-01-01"] ∧
      (serve Route.post ⟨"DEMO_KEY"⟩ sampleTemplate (sampleContext "2020-01-01")
          ((serve Route.post ⟨"DEMO_KEY"⟩ sampleTemplate (sampleContext "2020-01-01")
            (sampleWorld (GetResult.failed (GoError.transport "timeout")))).world.answering
          (GetResult.response 200 ⟨sampleBody, none⟩))).reply =
        (serve Route.post ⟨"DEMO_KEY"⟩ sampleTemplate (sampleContext "2020-01-01")
          (sampleWorld (GetResult.response 200 ⟨sampleBody, none⟩))).reply := by
  have h := serve_one_get_no_state Route.post ⟨"DEMO_KEY"⟩ sampleTemplate
    (sampleContext "2020-01-01")
    (sampleWorld (GetResult.response 200 ⟨sampleBody, none⟩))
    ((serve Route.post ⟨"DEMO_KEY"⟩ sampleTemplate (sampleContext "2020-01-01")
      (sampleWorld (GetResult.failed (GoError.transport "timeout")))).world.answering
      (GetResult.response 200 ⟨sampleBody, none⟩))
    rfl rfl
  exact ⟨rfl, rfl, h.1, by decide, h.2.2.2⟩

/-- C1 as stated fails: with the form value `a&b` the receiver reads the date `a`, with
`a#b` it reads `a`, with `a+b` it reads `a b`, with `100%` or `a;b` it reads no date, with
`a b` it refuses the request line, and with `a\nb` no request is sent at all. -/
theorem handlePost_date_not_verbatim :
    ["a&b", "a#b", "a+b", "100%", "a;b", "a b", "a\nb"].map (fun d =>
      ((handlePost ⟨"DEMO_KEY"⟩ sampleTemplate (sampleContext d)
          (sampleWorld (GetResult.failed (GoError.transport "timeout")))).world.sent.length,
        (handlePost ⟨"DEMO_KEY"⟩ sampleTemplate (sampleContext d)
          (sampleWorld (GetResult.failed (GoError.transport "timeout")))).world.gets.map
            (receivedParam "date"))) =
    [(1, [some (bytes "a")]), (1, [some (bytes "a")]), (1, [some (bytes "a b")]),
      (1, [none]), (1, [none]), (1, [none]), (0, [none])] := by
  decide

/-- C1 (amended): when the API key holds no `#`, no `&`, no space and no control
character, and the submitted date holds none of `&`, `#`, `%`, `+`, `;`, no space and no
control character, `handlePost` sends the request for its URL (followed only by the
redirects the client follows), and the receiver of that request reads the query parameter
`date` as exactly the bytes of the submitted string (the empty string and `=`
included). -/
theorem handlePost_date_param (c : apiClient) (t : Template) (ctx : Context) (w : World)
    (hk : ∀ ch ∈ c.apiKey.data, ch ≠ '#' ∧ ch ≠ '&' ∧ 32 < ch.toNat ∧ ch.toNat ≠ 127)
    (hd : ∀ ch ∈ (ctx.FormValue "date").data,
      ch ≠ '&' ∧ ch ≠ '#' ∧ ch ≠ '%' ∧ ch ≠ '+' ∧ ch ≠ ';' ∧ 32 < ch.toNat ∧ ch.toNat ≠ 127) :
    ∃ url, (handlePost c t ctx w).world.sent = w.sent ++ url :: w.followed w.gets.length url ∧
      receivedParam "date" url = some (bytes (ctx.FormValue "date")) := by
  have h := receivedParam_requestURL c (ctx.FormValue "date") hk hd
  refine ⟨requestURL c (ctx.FormValue "date"), ?_, h.2⟩
  have hs := serve_sent Route.post c t ctx w
  simp only [requestedDate, h.1, Bool.false_eq_true, if_false] at hs
  exact hs

/-- C1 (amended), closed instance: the date `2020-01-01`. -/
theorem handlePost_date_param_witness :
    (∀ ch ∈ ("DEMO_KEY" : String).data,
        ch ≠ '#' ∧ ch ≠ '&' ∧ 32 < ch.toNat ∧ ch.toNat ≠ 127) ∧
      ∃ url, (handlePost ⟨"DEMO_KEY"⟩ sampleTemplate (sampleContext "2020-01-01")
          (sampleWorld (GetResult.failed (GoError.transport "timeout")))).world.sent =
            [] ++ url :: [] ∧
        receivedParam "date" url = some (bytes "2020-01-01") :=
  ⟨by decide,
    handlePost_date_param ⟨"DEMO_KEY"⟩ sampleTemplate (sampleContext "2020-01-01")
      (sampleWorld (GetResult.failed (GoError.transport "timeout")))
      (by decide) (by decide)⟩

set_option maxRecDepth 100000 in
/-- C3 as stated fails: a body that is a JSON object with the string fields date,
explanation, url and title and one more member `"Title":5` is answered with the 500 and
the generic message, and the template is not executed: the key `Title` matches the field
`title` without regard to case, and its value is not a string. -/
theorem handlePost_mixed_case_member :
    (handlePost ⟨"DEMO_KEY"⟩ sampleTemplate (sampleContext "2020-01-01")
        (sampleWorld (GetResult.response 200 ⟨sampleMixedCaseBody, none⟩))).reply =
      ⟨some 500, some "text/plain; charset=UTF-8", "APIリクエストエラー"⟩ ∧
    (handlePost ⟨"DEMO_KEY"⟩ sampleTemplate (sampleContext "2020-01-01")
        (sampleWorld (GetResult.response 200 ⟨sampleMixedCaseBody, none⟩))).world.executed = [] := by
  decide

/-- C3 (amended): for every submitted date and every upstream body (under any status)
that is a JSON object in which every member whose key matches one of the four field
names, case-insensitively, is a string, `handlePost` takes no error path and executes the
template once, on the view data whose Date is the submitted date and whose Result is
present and holds exactly the strings stored last for date, explanation, url and title;
with a template that renders the page the specification describes, the handler returns
nil, the status is 200, and the page written contains the title, the explanation and the
url, HTML-escaped. -/
theorem handlePost_renders_record (c : apiClient) (t : Template) (ctx : Context) (w : World)
    (status : Nat) (body : String) (members : List (String × JSON)) (dt ex u ti : String)
    (ht : pageShowsRecord t)
    (hnet : w.net w.gets.length (requestURL c (ctx.FormValue "date")) =
      GetResult.response status ⟨body, none⟩)
    (hobj : parseJSON body.data = some (JSON.obj members))
    (hstr : ∀ m ∈ members, fieldFor m.1 ≠ none → ∃ s, m.2 = JSON.str s)
    (hdate : memberFor Field.Date members = some (JSON.str dt))
    (hexpl : memberFor Field.Explanation members = some (JSON.str ex))
    (hurl : memberFor Field.URL members = some (JSON.str u))
    (htitle : memberFor Field.Title members = some (JSON.str ti)) :
    (handlePost c t ctx w).world.executed =
        w.executed ++ [⟨ctx.FormValue "date", some ⟨dt, ex, u, ti⟩⟩] ∧
      (handlePost c t ctx w).world.logs = w.logs ∧
      (handlePost c t ctx w).err = none ∧
      (handlePost c t ctx w).reply.statusCode = 200 ∧
      (handlePost c t ctx w).reply.body =
        (t ⟨ctx.FormValue "date", some ⟨dt, ex, u, ti⟩⟩).output ∧
      List.IsInfix (escapeHTML ti.data) (handlePost c t ctx w).reply.body.data ∧
      List.IsInfix (escapeHTML ex.data) (handlePost c t ctx w).reply.body.data ∧
      List.IsInfix (escapeHTML u.data) (handlePost c t ctx w).reply.body.data := by
  have ha := afterGet_strings status body members dt ex u ti hobj hstr hdate hexpl hurl htitle
  have hs := (serve_spec Route.post c t ctx w).1
  simp only [requestedDate, hnet, ha, serve, forall_const] at hs
  obtain ⟨h1, h2, h3, h4⟩ := hs
  obtain ⟨p1, p2, p3, p4⟩ := ht (ctx.FormValue "date") ⟨dt, ex, u, ti⟩
  have hb : (handlePost c t ctx w).reply.body =
      (t ⟨ctx.FormValue "date", some ⟨dt, ex, u, ti⟩⟩).output := by rw [h2]
  refine ⟨h3, h4, h1.trans p1, ?_, hb, ?_, ?_, ?_⟩
  · rw [h2]; rfl
  · rw [hb]; exact p2
  · rw [hb]; exact p3
  · rw [hb]; exact p4

set_option maxRecDepth 100000 in
/-- C3 (amended), closed instance: the date 2020-01-01 and the body of the
specification's example give a 200 page that contains T, E and http://x/img.jpg. -/
theorem handlePost_renders_record_witness :
    parseJSON sampleBody.data =
        some (JSON.obj [("date", JSON.str "2020-01-01"), ("explanation", JSON.str "E"),
          ("url", JSON.str "http://x/img.jpg"), ("title", JSON.str "T")]) ∧
      (handlePost ⟨"DEMO_KEY"⟩ indexTemplate (sampleContext "2020-01-01")
          (sampleWorld (GetResult.response 200 ⟨sampleBody, none⟩))).world.executed =
        [] ++ [⟨"2020-01-01", some ⟨"2020-01-01", "E", "http://x/img.jpg", "T"⟩⟩] ∧
      (handlePost ⟨"DEMO_KEY"⟩ indexTemplate (sampleContext "2020-01-01")
          (sampleWorld (GetResult.response 200 ⟨sampleBody, none⟩))).err = none ∧
      (handlePost ⟨"DEMO_KEY"⟩ indexTemplate (sampleContext "2020-01-01")
          (sampleWorld (GetResult.response 200 ⟨sampleBody, none⟩))).reply.statusCode = 200 ∧
      List.IsInfix "T".data
        (handlePost ⟨"DEMO_KEY"⟩ indexTemplate (sampleContext "2020-01-01")
          (sampleWorld (GetResult.response 200 ⟨sampleBody, none⟩))).reply.body.data ∧
      List.IsInfix "E".data
        (handlePost ⟨"DEMO_KEY"⟩ indexTemplate (sampleContext "2020-01-01")
          (sampleWorld (GetResult.response 200 ⟨sampleBody, none⟩))).reply.body.data ∧
      List.IsInfix "http://x/img.jpg".data
        (handlePost ⟨"DEMO_KEY"⟩ indexTemplate (sampleContext "2020-01-01")
          (sampleWorld (GetResult.response 200 ⟨sampleBody, none⟩))).reply.body.data := by
  have hobj : parseJSON sampleBody.data =
      some (JSON.obj [("date", JSON.str "2020-01-01"), ("explanation", JSON.str "E"),
        ("url", JSON.str "http://x/img.jpg"), ("title", JSON.str "T")]) := by rfl
  have h := handlePost_renders_record ⟨"DEMO_KEY"⟩ indexTemplate (sampleContext "2020-01-01")
    (sampleWorld (GetResult.response 200 ⟨sampleBody, none⟩)) 200 sampleBody
    [("date", JSON.str "2020-01-01"), ("explanation", JSON.str "E"),
      ("url", JSON.str "http://x/img.jpg"), ("title", JSON.str "T")]
    "2020-01-01" "E" "http://x/img.jpg" "T" indexTemplate_shows rfl hobj
    (by
      intro m hm _
      simp only [List.mem_cons, List.mem_singleton, List.not_mem_nil, or_false] at hm
      rcases hm with h | h | h | h <;> subst h <;> exact ⟨_, rfl⟩)
    rfl rfl rfl rfl
  exact ⟨hobj, h.1, h.2.2.1, h.2.2.2.1, h.2.2.2.2.2.1, h.2.2.2.2.2.2.1, h.2.2.2.2.2.2.2⟩

set_option maxRecDepth 100000 in
/-- C5 as stated fails: for an empty object, for `null` and for an object without any of
the four fields, `fetchData` returns a record (all fields empty) and no error. -/
theorem fetchData_lenient_shapes :
    ["\x7b\x7d", "null", sampleErrorBody].map (fun body =>
      (fetchData ⟨"DEMO_KEY"⟩ "2020-01-01"
        (sampleWorld (GetResult.response 200 ⟨body, none⟩))).1) =
    [(some ⟨"", "", "", ""⟩, none), (some ⟨"", "", "", ""⟩, none),
      (some ⟨"", "", "", ""⟩, none)] := by
  decide

/-- C5 (amended): `fetchData` returns a record and no error exactly when `http.Get`
returns a response (of any status) whose body is read to the end and is valid JSON that
is either `null` or an object in which every member whose key matches one of the four
field names (case-insensitively) is a string or `null`; in every other case (network
error, read error, invalid JSON, any other top-level value, a field member of another
type) it returns an error and no record. It never returns both or neither. -/
theorem fetchData_record_iff (c : apiClient) (date : String) (w : World) :
    ((fetchData c date w).1.2 = none ↔
      ∃ status data j,
        w.net w.gets.length (requestURL c date) = GetResult.response status ⟨data, none⟩ ∧
        parseJSON data.data = some j ∧
        (j = JSON.null ∨ ∃ members, j = JSON.obj members ∧
          ∀ m ∈ members, fieldFor m.1 ≠ none → (∃ s, m.2 = JSON.str s) ∨ m.2 = JSON.null)) ∧
      ((fetchData c date w).1.1 = none ↔ (fetchData c date w).1.2 ≠ none) := by
  rw [fetchData_fst]
  refine ⟨?_, afterGet_fst _⟩
  rw [afterGet_snd, yieldsRecord_iff]
  simp only [shapeAccepted_iff]

set_option maxRecDepth 100000 in
/-- C6 as stated fails: when the upstream answers status 400 with a JSON error object,
both routes execute the template on a record with empty fields and send no 500. -/
theorem serve_upstream_error_rendered :
    (serve Route.post ⟨"DEMO_KEY"⟩ sampleTemplate (sampleContext "2020-13-45")
        (sampleWorld (GetResult.response 400 ⟨sampleErrorBody, none⟩))).reply =
      ⟨none, none, "2020-13-45\n\n\n"⟩ ∧
    (serve Route.post ⟨"DEMO_KEY"⟩ sampleTemplate (sampleContext "2020-13-45")
        (sampleWorld (GetResult.response 400 ⟨sampleErrorBody, none⟩))).world.executed =
      [⟨"2020-13-45", some ⟨"", "", "", ""⟩⟩] ∧
    (serve Route.root ⟨"DEMO_KEY"⟩ sampleTemplate (sampleContext "")
        (sampleWorld (GetResult.response 500 ⟨sampleErrorBody, none⟩))).reply =
      ⟨none, none, "2020-01-01\n\n\n"⟩ := by
  decide

/-- C6 (amended): on either route the upstream status code is not looked at: an answer
with any status is handled exactly as the same body under status 200, so the reply is the
500 with the generic message exactly when the body cannot be read or does not decode,
and otherwise the template is executed. -/
theorem serve_ignores_status (r : Route) (c : apiClient) (t : Template) (ctx : Context)
    (w : World) (status : Nat) (Body : Reader) :
    (serve r c t ctx (w.answering (GetResult.response status Body))).err =
        (serve r c t ctx (w.answering (GetResult.response 200 Body))).err ∧
      (serve r c t ctx (w.answering (GetResult.response status Body))).reply =
        (serve r c t ctx (w.answering (GetResult.response 200 Body))).reply ∧
      (serve r c t ctx (w.answering (GetResult.response status Body))).world.executed =
        (serve r c t ctx (w.answering (GetResult.response 200 Body))).world.executed ∧
      (serve r c t ctx (w.answering (GetResult.response status Body))).world.logs =
        (serve r c t ctx (w.answering (GetResult.response 200 Body))).world.logs ∧
      ((serve r c t ctx (w.answering (GetResult.response status Body))).reply.status = some 500 ↔
        yieldsRecord (GetResult.response status Body) = false) := by
  have h1 := serve_spec r c t ctx (w.answering (GetResult.response status Body))
  have h2 := serve_spec r c t ctx (w.answering (GetResult.response 200 Body))
  have e1 : ∀ g, (w.answering g).net (w.answering g).gets.length
      (requestURL c (requestedDate r ctx w)) = g := fun g => rfl
  simp only [requestedDate_answering, e1] at h1 h2
  rw [afterGet_status 200 status] at h2
  cases hres : (afterGet (GetResult.response status Body)).2 with
  | none =>
    have a1 := h1.1 hres
    have a2 := h2.1 hres
    have hy : yieldsRecord (GetResult.response status Body) = true := (afterGet_snd _).mp hres
    refine ⟨a1.1.trans a2.1.symm, a1.2.1.trans a2.2.1.symm, a1.2.2.1.trans a2.2.2.1.symm,
      a1.2.2.2.trans a2.2.2.2.symm, ?_⟩
    rw [a1.2.1, hy]
    simp
  | some e =>
    have hne : (afterGet (GetResult.response status Body)).2 ≠ none := by simp [hres]
    have a1 := h1.2 hne
    have a2 := h2.2 hne
    have hy : yieldsRecord (GetResult.response status Body) = false := by
      cases hb : yieldsRecord (GetResult.response status Body) with
      | false => rfl
      | true => exact absurd ((afterGet_snd _).mpr hb) hne
    refine ⟨a1.1.trans a2.1.symm, a1.2.1.trans a2.2.1.symm, a1.2.2.1.trans a2.2.2.1.symm,
      a1.2.2.2.trans a2.2.2.2.symm, ?_⟩
    rw [a1.2.1, hy]
    simp

set_option maxRecDepth 100000 in
/-- C7 as stated fails: when the fetch succeeds and the template fails, both routes
return the template's error itself; no status, no message and no log line are written. -/
theorem serve_template_error_returned :
    (serve Route.post ⟨"DEMO_KEY"⟩ failingTemplate (sampleContext "2020-01-01")
        (sampleWorld (GetResult.response 200 ⟨sampleBody, none⟩))).err =
      some (GoError.template "template: index.html: execution failed") ∧
    (serve Route.post ⟨"DEMO_KEY"⟩ failingTemplate (sampleContext "2020-01-01")
        (sampleWorld (GetResult.response 200 ⟨sampleBody, none⟩))).reply = ⟨none, none, ""⟩ ∧
    (serve Route.post ⟨"DEMO_KEY"⟩ failingTemplate (sampleContext "2020-01-01")
        (sampleWorld (GetResult.response 200 ⟨sampleBody, none⟩))).world.logs = [] ∧
    (serve Route.root ⟨"DEMO_KEY"⟩ failingTemplate (sampleContext "")
        (sampleWorld (GetResult.response 200 ⟨sampleBody, none⟩))).err =
      some (GoError.template "template: index.html: execution failed") := by
  decide

/-- C7 (amended): on either route, when the fetch succeeds the handler returns what
`Execute` returns, nil or the template's error unchanged, to the framework; it writes
only the template's output, sets no status and no content type, and does not call
`handleError` (nothing is logged). -/
theorem serve_returns_template_error (r : Route) (c : apiClient) (t : Template)
    (ctx : Context) (w : World)
    (h : (fetchData c (requestedDate r ctx w) (worldAtFetch r w)).1.2 = none) :
    (serve r c t ctx w).err =
        (t ⟨requestedDate r ctx w,
          (fetchData c (requestedDate r ctx w) (worldAtFetch r w)).1.1⟩).err ∧
      (serve r c t ctx w).reply =
        ⟨none, none, (t ⟨requestedDate r ctx w,
          (fetchData c (requestedDate r ctx w) (worldAtFetch r w)).1.1⟩).output⟩ ∧
      (serve r c t ctx w).world.logs = w.logs := by
  rw [serve_of_ok r c t ctx w h]
  cases r <;> exact ⟨rfl, rfl, rfl⟩

set_option maxRecDepth 100000 in
/-- C7 (amended), closed instance: the index route with a failing template. -/
theorem serve_returns_template_error_witness :
    (fetchData ⟨"DEMO_KEY"⟩
        (requestedDate Route.root (sampleContext "")
          (sampleWorld (GetResult.response 200 ⟨sampleBody, none⟩)))
        (worldAtFetch Route.root
          (sampleWorld (GetResult.response 200 ⟨sampleBody, none⟩)))).1.2 = none ∧
      (serve Route.root ⟨"DEMO_KEY"⟩ failingTemplate (sampleContext "")
          (sampleWorld (GetResult.response 200 ⟨sampleBody, none⟩))).reply =
        ⟨none, none, ""⟩ ∧
      (serve Route.root ⟨"DEMO_KEY"⟩ failingTemplate (sampleContext "")
          (sampleWorld (GetResult.response 200 ⟨sampleBody, none⟩))).world.logs = [] := by
  have h0 : (fetchData ⟨"DEMO_KEY"⟩
        (requestedDate Route.root (sampleContext "")
          (sampleWorld (GetResult.response 200 ⟨sampleBody, none⟩)))
        (worldAtFetch Route.root
          (sampleWorld (GetResult.response 200 ⟨sampleBody, none⟩)))).1.2 = none := by decide
  have h := serve_returns_template_error Route.root ⟨"DEMO_KEY"⟩ failingTemplate
    (sampleContext "") (sampleWorld (GetResult.response 200 ⟨sampleBody, none⟩)) h0
  exact ⟨h0, h.2.1, h.2.2⟩

/-- C4: for every clock reading, `handleRoot` reads the clock once, calls `http.Get`
once with the date of that reading written as YYYY-MM-DD (four-digit year, two-digit
month, two-digit day, zero-padded, separated by `-`), and the view data it executes the
template on, if any, has that same string as its Date. -/
theorem handleRoot_requests_today (c : apiClient) (t : Template) (ctx : Context) (w : World) :
    ∃ today : String,
      parseYMD today.data =
          some ((w.clock w.clockReads).year.toNat, (w.clock w.clockReads).month,
            (w.clock w.clockReads).day) ∧
        (handleRoot c t ctx w).world.gets =
          w.gets ++
            ["https://api.nasa.gov/planetary/apod?api_key=" ++ c.apiKey ++ "&date=" ++ today] ∧
        (handleRoot c t ctx w).world.clockReads = w.clockReads + 1 ∧
        ((handleRoot c t ctx w).world.executed = w.executed ∨
          ∃ res, (handleRoot c t ctx w).world.executed = w.executed ++ [⟨today, res⟩]) := by
  refine ⟨requestedDate Route.root ctx w,
    parseYMD_Format _ (w.clock w.clockReads).year_range.1 (w.clock w.clockReads).year_range.2,
    ?_, serve_clockReads Route.root c t ctx w, ?_⟩
  · rw [← requestURL_eq]
    exact serve_gets Route.root c t ctx w
  · have hs := serve_spec Route.root c t ctx w
    cases hres : (afterGet (w.net w.gets.length
        (requestURL c (requestedDate Route.root ctx w)))).2 with
    | none => exact Or.inr ⟨_, (hs.1 hres).2.2.1⟩
    | some e => exact Or.inl (hs.2 (by simp [hres])).2.2.1

set_option maxRecDepth 100000 in
/-- C8 as stated fails: `handlePost` puts the form value `not a date` into the view
data as it is, and it is not a valid YYYY-MM-DD string. -/
theorem serve_view_date_unchecked :
    (handlePost ⟨"DEMO_KEY"⟩ sampleTemplate (sampleContext "not a date")
        (sampleWorld (GetResult.response 200 ⟨sampleBody, none⟩))).world.executed.map
          (fun d => (d.Date, isValidYMD d.Date)) = [("not a date", false)] := by
  decide

/-- C8 (amended): a view data built by `handleRoot` has as Date a valid YYYY-MM-DD string
whenever the year of the clock reading is between 0 and 9999; a view data built by
`handlePost` has as Date the submitted form value as it is, valid or not. Each handler
builds at most one view data. -/
theorem serve_view_date (r : Route) (c : apiClient) (t : Template) (ctx : Context) (w : World)
    (hy : r = Route.root →
      0 ≤ (w.clock w.clockReads).year ∧ (w.clock w.clockReads).year ≤ 9999) :
    ((serve r c t ctx w).world.executed = w.executed ∨
        ∃ res, (serve r c t ctx w).world.executed =
          w.executed ++ [⟨requestedDate r ctx w, res⟩]) ∧
      (r = Route.root → isValidYMD (requestedDate r ctx w) = true) ∧
      (r = Route.post → requestedDate r ctx w = ctx.FormValue "date") := by
  refine ⟨?_, ?_, ?_⟩
  · have hs := serve_spec r c t ctx w
    cases hres : (afterGet (w.net w.gets.length (requestURL c (requestedDate r ctx w)))).2 with
    | none => exact Or.inr ⟨_, (hs.1 hres).2.2.1⟩
    | some e => exact Or.inl (hs.2 (by simp [hres])).2.2.1
  · intro hr
    subst hr
    have h := parseYMD_Format (w.clock w.clockReads) (hy rfl).1 (hy rfl).2
    simp only [isValidYMD, requestedDate, h, Option.isSome_some]
  · intro hr
    subst hr
    rfl

set_option maxRecDepth 100000 in
/-- C8 (amended), closed instance: the index route with the clock at 1 January 2020. -/
theorem serve_view_date_witness :
    (Route.root = Route.root → 0 ≤ (sampleClock 0).year ∧ (sampleClock 0).year ≤ 9999) ∧
      (serve Route.root ⟨"DEMO_KEY"⟩ sampleTemplate (sampleContext "")
          (sampleWorld (GetResult.response 200 ⟨sampleBody, none⟩))).world.executed.map
            (fun d => d.Date) = ["2020-01-01"] ∧
      isValidYMD "2020-01-01" = true :=
  ⟨fun _ => ⟨by decide, by decide⟩, by decide,
    (serve_view_date Route.root ⟨"DEMO_KEY"⟩ sampleTemplate (sampleContext "")
      (sampleWorld (GetResult.response 200 ⟨sampleBody, none⟩))
      (fun _ => ⟨by decide, by decide⟩)).2.1 rfl⟩

end ApodSample
